import Mathlib

set_option maxRecDepth 8000

/-!
Shallow embedding of `src/evm/onchain/endpoints.rs` (the `OnChainConfig`
data-access layer: transport with retry and a two-tier cache, block pinning,
contract-state accessors, explorer ABI client, pair discovery and reserve
decoding).

Modelling conventions:
* `ExtEnv` packages the deterministic external collaborators the code calls
  into: the request fingerprint hash (`DefaultHasher` over the key string),
  JSON parsing (`serde_json::from_str`), whether a persistent-cache `save`
  errors (`FileSystemCache::save`), and the value sampled by `rand::random`.
* `NetState` is the network: an infinite trace assigning to each outbound
  attempt either a response body (`some body`) or a transport/body-read
  failure (`none`), a counter of attempts made so far, a log of the requests
  actually sent (url, payload), and the sleeps performed between retries.
* Rust panics (`unwrap`, `expect`, explicit panic macros) are `Res.panic`.
* Machine integers (u256 balances/slots, 160-bit addresses) are `Nat` with
  explicit bounds where the source checks them; strings are Lean `String`
  (the payloads involved are ASCII, so Rust byte indexing coincides with
  character indexing).
* Fields of `OnChainConfig` not touched by any operation modelled here
  (`client`, `price_cache`, `code_cache_analyzed`, `storage_dump_cache`,
  `uniswap_path_cache`) are omitted.
-/

/-- Result of running an operation that may panic (Rust `unwrap`/`expect`
/ panic macros abort the session). -/
inductive Res (α : Type) where
  | ok (val : α)
  | panic (msg : String)

/-- Hex value of one character, accepting both cases, as the hex parsers in
the Rust dependencies do. -/
def hexVal (c : Char) : Option Nat :=
  if '0' ≤ c ∧ c ≤ '9' then some (c.toNat - 48)
  else if 'a' ≤ c ∧ c ≤ 'f' then some (c.toNat - 87)
  else if 'A' ≤ c ∧ c ≤ 'F' then some (c.toNat - 55)
  else none

/-- Accumulating digit parser for a given radix; fails on any character whose
digit value is not below the radix. -/
def parseDigitsAux (radix : Nat) : List Char → Nat → Option Nat
  | [], acc => some acc
  | c :: rest, acc =>
    match hexVal c with
    | some v => if v < radix then parseDigitsAux radix rest (acc * radix + v) else none
    | none => none

/-- Parse a non-empty digit string in the given radix. -/
def parseDigits (radix : Nat) (s : List Char) : Option Nat :=
  if s = [] then none else parseDigitsAux radix s 0

/-- Embedding of ruint `U256::from_str` without the final 256-bit bound:
a `0x`/`0b`/`0o` prefix selects the radix, otherwise decimal. -/
def parseUintCore (s : String) : Option Nat :=
  match s.toList with
  | '0' :: 'x' :: rest => parseDigits 16 rest
  | '0' :: 'b' :: rest => parseDigits 2 rest
  | '0' :: 'o' :: rest => parseDigits 8 rest
  | cs => parseDigits 10 cs

/-- Embedding of ruint `U256::from_str` (`EVMU256::from_str`): radix-prefixed
or decimal parse, failing when the value does not fit in 256 bits. -/
def parseUint (s : String) : Option Nat :=
  match parseUintCore s with
  | some v => if v < 2 ^ 256 then some v else none
  | none => none

/-- Lowercase minimal hex rendering of a `Nat`, as Rust `format ("0x" and
a lowercase hex body with no padding) produces for ruint integers. -/
def natHex (n : Nat) : String := String.mk (Nat.toDigits 16 n)

/-- Left-pad a hex string with zeros to 40 characters, as the `LowerHex` /
`Debug` rendering of a 160-bit `B160` address always emits 40 hex digits. -/
def padLeft40 (s : String) : String :=
  String.mk (List.replicate (40 - s.toList.length) '0' ++ s.toList)

/-- Rendering of an address as the source formats it into RPC parameters. -/
def addrHex (a : Nat) : String := "0x" ++ padLeft40 (natHex a)

/-- Rendering of a u256 slot index as the source formats it (no padding). -/
def u256Hex (v : Nat) : String := "0x" ++ natHex v

/-- Embedding of Rust `str::trim_start_matches ("0x")`: strips every leading
repetition of the two-character prefix. -/
def trimChars0x : List Char → List Char
  | '0' :: 'x' :: rest => trimChars0x rest
  | l => l

/-- String wrapper for `trimChars0x`. -/
def trimStart0x (s : String) : String := String.mk (trimChars0x s.toList)

/-- Does `pat` occur as a prefix at some position of the list? Helper for the
substring scan. -/
def containsFrom (pat : List Char) : List Char → Bool
  | [] => pat.isPrefixOf ([] : List Char)
  | c :: rest => pat.isPrefixOf (c :: rest) || containsFrom pat rest

/-- Embedding of Rust `str::contains (pat)`: substring scan. -/
def strContains (s pat : String) : Bool := containsFrom pat.toList s.toList

/-- Characters `a ≤ i < b` of a string, as Rust range slicing on an ASCII
string. -/
def charSlice (s : String) (a b : Nat) : String :=
  String.mk ((s.toList.drop a).take (b - a))

/-- Boolean string-prefix test over the character list. -/
def strIsPrefix (pat s : String) : Bool := pat.toList.isPrefixOf s.toList

/-- Drop the first `n` characters of a string. -/
def strDrop (s : String) (n : Nat) : String := String.mk (s.toList.drop n)

/-- ASCII lowercasing, as `str::to_lowercase` on the addresses involved. -/
def lowerStr (s : String) : String := String.mk (s.toList.map Char.toLower)

/-- Embedding of `hex::decode`: pairs of hex characters into bytes; fails on
odd length or a non-hex character. -/
def hexDecodeAux : List Char → Option (List Nat)
  | [] => some []
  | [_] => none
  | a :: b :: rest =>
    match hexVal a, hexVal b, hexDecodeAux rest with
    | some x, some y, some bs => some ((x * 16 + y) :: bs)
    | _, _, _ => none

/-- String wrapper for `hexDecodeAux`. -/
def hexDecode (s : String) : Option (List Nat) := hexDecodeAux s.toList

/-- Big-endian byte list to natural number. -/
def beToNat (bs : List Nat) : Nat := bs.foldl (fun acc b => acc * 256 + b) 0

/-- Embedding of ruint `U256::try_from_be_slice`: succeeds exactly when the
value fits in 256 bits. -/
def tryFromBeSlice (bs : List Nat) : Option Nat :=
  if beToNat bs < 2 ^ 256 then some (beToNat bs) else none

/-- Embedding of `B160::from_str` (`EVMAddress`): optional `0x` prefix, then
exactly 40 hex characters. -/
def parseAddr (s : String) : Option Nat :=
  let t := if strIsPrefix "0x" s then strDrop s 2 else s
  if t.toList.length = 40 then parseDigits 16 t.toList else none

/- Minimal JSON value model for what the code inspects of `serde_json`
values (mutual family so recursion over arrays/objects is structural). -/
mutual
inductive Json where
  | null : Json
  | jbool (b : Bool) : Json
  | num (n : Int) : Json
  | str (s : String) : Json
  | arr (items : JsonArr) : Json
  | obj (fields : JsonObj) : Json

inductive JsonArr where
  | nil : JsonArr
  | cons (hd : Json) (tl : JsonArr) : JsonArr

inductive JsonObj where
  | nil : JsonObj
  | cons (key : String) (val : Json) (tl : JsonObj) : JsonObj
end

/-- Field lookup inside a JSON object node. -/
def jObjGet : JsonObj → String → Option Json
  | .nil, _ => none
  | .cons k v rest, key => if k = key then some v else jObjGet rest key

/-- Embedding of `serde_json::Value::get (key)`: `some` only on objects that
contain the key. -/
def jGet : Json → String → Option Json
  | .obj fields, key => jObjGet fields key
  | _, _ => none

/-- Embedding of indexing `value [key]`: `Null` when absent. -/
def jIndex (j : Json) (key : String) : Json :=
  match jGet j key with
  | some v => v
  | none => Json.null

/-- Embedding of `Value::as_str`. -/
def Json.asStr : Json → Option String
  | .str s => some s
  | _ => none

/-- Embedding of `Value::as_array` (as the mutual-family array node). -/
def Json.asArr : Json → Option JsonArr
  | .arr items => some items
  | _ => none

/-- Embedding of `Value::as_i64`. -/
def Json.asI64 : Json → Option Int
  | .num n => some n
  | _ => none

/-- JSON string escaping for the quote and backslash (sufficient for the
payloads the code serializes). -/
def jsonEscapeChar (c : Char) : List Char :=
  if c = '"' then ['\\', '"']
  else if c = '\\' then ['\\', '\\']
  else [c]

/-- Escape a string body for JSON serialization. -/
def jsonEscape (s : String) : String := String.mk ((s.toList.map jsonEscapeChar).flatten)

/- Embedding of `Value::to_string` (compact serialization; object keys are
already stored sorted, as serde's default `BTreeMap` keeps them). -/
mutual
def jToString : Json → String
  | .null => "null"
  | .jbool true => "true"
  | .jbool false => "false"
  | .num n => toString n
  | .str s => "\"" ++ jsonEscape s ++ "\""
  | .arr items => "[" ++ jArrToString items ++ "]"
  | .obj fields => "\x7b" ++ jObjToString fields ++ "\x7d"

def jArrToString : JsonArr → String
  | .nil => ""
  | .cons j .nil => jToString j
  | .cons j rest => jToString j ++ "," ++ jArrToString rest

def jObjToString : JsonObj → String
  | .nil => ""
  | .cons k v .nil => "\"" ++ jsonEscape k ++ "\":" ++ jToString v
  | .cons k v rest => "\"" ++ jsonEscape k ++ "\":" ++ jToString v ++ "," ++ jObjToString rest
end

/-- Deterministic external collaborators of the session. -/
structure ExtEnv where
  hashFn : String → String
  parse : String → Option Json
  saveFails : String → String → Bool
  randVal : Nat

/-- The network, as an oracle: outcome of the i-th outbound attempt, the
number of attempts made, the log of requests sent (url, payload) and the
sleeps performed (most recent first in both lists). -/
structure NetState where
  trace : Nat → Option String
  calls : Nat
  log : List (String × String)
  sleeps : List Nat

/-- One outbound HTTP attempt: consumes the next trace entry and records the
request. -/
def NetState.send (net : NetState) (url body : String) : Option String × NetState :=
  (net.trace net.calls,
    { net with calls := net.calls + 1, log := (url, body) :: net.log })

/-- Record a fixed-delay sleep between retries. -/
def NetState.sleep (net : NetState) (ms : Nat) : NetState :=
  { net with sleeps := ms :: net.sleeps }

/-- One hop of the swap-path graph (`PairData`). -/
structure PairData where
  src : String
  in_ : Int
  pair : String
  in_token : String
  next : String
  src_exact : String
  rate : Nat
  initial_reserves_0 : String
  initial_reserves_1 : String
  decimals_0 : Nat
  decimals_1 : Nat
deriving DecidableEq

/-- The session state (`OnChainConfig`), with caches as association lists
(insertion at the head shadows, as `HashMap::insert` replaces). -/
structure OnChainConfig where
  endpoint_url : String
  chain_id : Nat
  block_number : String
  timestamp : Option String
  coinbase : Option String
  gaslimit : Option String
  block_hash : Option String
  etherscan_api_key : List String
  etherscan_base : String
  chain_name : String
  balance_cache : List (Nat × Nat)
  pair_cache : List (Nat × List PairData)
  slot_cache : List ((Nat × Nat) × Nat)
  code_cache : List (Nat × String)
  abi_cache : List (Nat × Option String)
  rpc_cache : List (String × String)

/-- Association-list lookup used for every cache map. -/
def cacheLookup {K V : Type} [DecidableEq K] : List (K × V) → K → Option V
  | [], _ => none
  | (k, v) :: rest, key => if k = key then some v else cacheLookup rest key

/-- The explorer rate-limit marker scanned for in GET bodies. -/
def rateLimitMarker : String := "Max rate limit reached"

/-- Embedding of the `retry_with_index` loop shared by `get` and `post`:
`currentTry` starts at 1; a closure invocation with `currentTry > maxTry`
returns the terminal error without sending; otherwise one HTTP attempt is
made, and a transport/read failure — or, when `scanRL` is set, a body
containing the rate-limit marker — sleeps `delayMs` and retries. The `fuel`
argument is only a structural-termination device: call sites pass
`maxTry + 1`, which the `currentTry` guard makes sufficient, so the
fuel-exhaustion branch is unreachable (and coincides with the terminal
error anyway). -/
def retryLoop (maxTry delayMs : Nat) (scanRL : Bool) (url body : String) :
    Nat → Nat → NetState → Option String × NetState
  | _, 0, net => (none, net)
  | currentTry, fuel + 1, net =>
    if currentTry > maxTry then (none, net)
    else
      match net.send url body with
      | (some t, net₁) =>
        if scanRL && strContains t rateLimitMarker then
          retryLoop maxTry delayMs scanRL url body (currentTry + 1) fuel (net₁.sleep delayMs)
        else (some t, net₁)
      | (none, net₁) =>
        retryLoop maxTry delayMs scanRL url body (currentTry + 1) fuel (net₁.sleep delayMs)

/-- Run the retry loop from the first try. -/
def runRetry (maxTry delayMs : Nat) (scanRL : Bool) (url body : String) (net : NetState) :
    Option String × NetState :=
  retryLoop maxTry delayMs scanRL url body 1 (maxTry + 1) net

/-- Embedding of `OnChainConfig::get`: fingerprint `"get_" ++ url`, hashed;
persistent-cache hit short-circuits; otherwise the GET retry loop
(`maxTry` 5, fixed 1000 ms delay, rate-limit scan on), and on success the
body is persisted exactly when it does not contain `"error"` (a failing
`save` is unwrapped, i.e. panics). -/
def transportGet (env : ExtEnv) (s : OnChainConfig) (net : NetState) (url : String) :
    Res (Option String × OnChainConfig × NetState) :=
  let h := env.hashFn ("get_" ++ url)
  match cacheLookup s.rpc_cache h with
  | some t => Res.ok (some t, s, net)
  | none =>
    match runRetry 5 1000 true url "" net with
    | (some t, net') =>
      if strContains t "error" then Res.ok (some t, s, net')
      else if env.saveFails h t then Res.panic "save failed and was unwrapped"
      else Res.ok (some t, { s with rpc_cache := (h, t) :: s.rpc_cache }, net')
    | (none, net') => Res.ok (none, s, net')

/-- Embedding of `OnChainConfig::post`: fingerprint
`"post_" ++ url ++ "_" ++ data`; persistent-cache hit short-circuits;
otherwise the POST retry loop (`maxTry` 3, fixed 100 ms delay, no rate-limit
scan), with the same persist-on-success policy as `transportGet`. -/
def transportPost (env : ExtEnv) (s : OnChainConfig) (net : NetState)
    (url data : String) : Res (Option String × OnChainConfig × NetState) :=
  let h := env.hashFn ("post_" ++ url ++ "_" ++ data)
  match cacheLookup s.rpc_cache h with
  | some t => Res.ok (some t, s, net)
  | none =>
    match runRetry 3 100 false url data net with
    | (some t, net') =>
      if strContains t "error" then Res.ok (some t, s, net')
      else if env.saveFails h t then Res.panic "save failed and was unwrapped"
      else Res.ok (some t, { s with rpc_cache := (h, t) :: s.rpc_cache }, net')
    | (none, net') => Res.ok (none, s, net')

/-- The JSON-RPC envelope the source formats for `_request`. -/
def jsonRpcBody (method params : String) (id : Nat) : String :=
  "\x7b\"jsonrpc\":\"2.0\", \"method\": \"" ++ method ++ "\", \"params\": " ++ params ++
    ", \"id\": " ++ toString id ++ "\x7d"

/-- Embedding of `OnChainConfig::_request`: POST the envelope to the session
endpoint and extract the `result` field of the parsed response. -/
def rpcRequest (env : ExtEnv) (s : OnChainConfig) (net : NetState)
    (method params : String) : Res (Option Json × OnChainConfig × NetState) :=
  let data := jsonRpcBody method params s.chain_id
  match transportPost env s net s.endpoint_url data with
  | Res.panic m => Res.panic m
  | Res.ok (o, s', net') =>
    Res.ok (o.bind (fun resp => (env.parse resp).bind (fun json => jGet json "result")),
      s', net')

/-- Embedding of `OnChainConfig::_request_with_id`: as `rpcRequest` but with
an explicit envelope id. -/
def rpcRequestWithId (env : ExtEnv) (s : OnChainConfig) (net : NetState)
    (method params : String) (id : Nat) : Res (Option Json × OnChainConfig × NetState) :=
  let data := jsonRpcBody method params id
  match transportPost env s net s.endpoint_url data with
  | Res.panic m => Res.panic m
  | Res.ok (o, s', net') =>
    Res.ok (o.bind (fun resp => (env.parse resp).bind (fun json => jGet json "result")),
      s', net')

/-- The state `new_raw` builds before the optional latest-block resolution:
the pinned block is the 0x-prefixed lowercase hex of the argument, all lazy
block fields unset, all in-memory caches empty, and the persistent cache
holding whatever is on disk (`rpc0`). -/
def initialState (endpoint_url : String) (chain_id block_number : Nat)
    (etherscan_base chain_name : String) (rpc0 : List (String × String)) : OnChainConfig :=
  { endpoint_url := endpoint_url
    chain_id := chain_id
    block_number := "0x" ++ natHex block_number
    timestamp := none
    coinbase := none
    gaslimit := none
    block_hash := none
    etherscan_api_key := []
    etherscan_base := etherscan_base
    chain_name := chain_name
    balance_cache := []
    pair_cache := []
    slot_cache := []
    code_cache := []
    abi_cache := []
    rpc_cache := rpc0 }

/-- Embedding of `OnChainConfig::set_latest_block_number`: resolve
`eth_blockNumber`, adopt the result string verbatim as the pinned block
(panicking when the call yields no result or a non-string), and unwrap the
hex re-parse the source performs for its debug log. -/
def set_latest_block_number (env : ExtEnv) (s : OnChainConfig) (net : NetState) :
    Res (OnChainConfig × NetState) :=
  match rpcRequest env s net "eth_blockNumber" "[]" with
  | Res.panic m => Res.panic m
  | Res.ok (some resp, s', net') =>
    match resp.asStr with
    | none => Res.panic "unwrap of block number string"
    | some bn =>
      match parseDigits 16 (trimChars0x bn.toList) with
      | none => Res.panic "unwrap of block number hex parse"
      | some v =>
        if v < 2 ^ 256 then Res.ok ({ s' with block_number := bn }, net')
        else Res.panic "unwrap of block number hex parse"
  | Res.ok (none, _, _) => Res.panic "fail to get latest block number"

/-- Embedding of `OnChainConfig::new_raw`: pin the caller-supplied block
number as a 0x-prefixed hex string, then, exactly when it is zero, resolve
and adopt the latest block. -/
def new_raw (env : ExtEnv) (rpc0 : List (String × String)) (net : NetState)
    (endpoint_url : String) (chain_id block_number : Nat)
    (etherscan_base chain_name : String) : Res (OnChainConfig × NetState) :=
  let s := initialState endpoint_url chain_id block_number etherscan_base chain_name rpc0
  if block_number = 0 then set_latest_block_number env s net
  else Res.ok (s, net)

/-- The shared response-extraction pattern of the state accessors: a present
result must be a JSON string (`as_str` unwrap panics otherwise) and a missing
result degrades to the empty string. -/
def unwrapRespString (o : Option Json) : Res String :=
  match o with
  | some resp =>
    match resp.asStr with
    | some str => Res.ok str
    | none => Res.panic "unwrap of response string"
  | none => Res.ok ""

/-- The `[address, block]` parameter list built by `get_balance` and
`get_contract_code`. -/
def addrBlockParams (address : Nat) (blockNumber : String) : String :=
  "[\"" ++ addrHex address ++ "\",\"" ++ blockNumber ++ "\"]"

/-- The `[address, slot, block]` parameter list built by
`get_contract_slot`. -/
def slotParams (address slot : Nat) (blockNumber : String) : String :=
  "[\"" ++ addrHex address ++ "\",\"" ++ u256Hex slot ++ "\",\"" ++ blockNumber ++ "\"]"

/-- Embedding of `OnChainConfig::get_balance`: cache-checked
`eth_getBalance (address, pinned block)`; a missing result degrades to the
empty string, whose u256 parse is unwrapped (panics). -/
def get_balance (env : ExtEnv) (s : OnChainConfig) (net : NetState) (address : Nat) :
    Res (Nat × OnChainConfig × NetState) :=
  match cacheLookup s.balance_cache address with
  | some b => Res.ok (b, s, net)
  | none =>
    match rpcRequest env s net "eth_getBalance" (addrBlockParams address s.block_number) with
    | Res.panic m => Res.panic m
    | Res.ok (o, s₁, net₁) =>
      match unwrapRespString o with
      | Res.panic m => Res.panic m
      | Res.ok respString =>
        match parseUint respString with
        | none => Res.panic "unwrap of balance parse"
        | some balance =>
          Res.ok (balance,
            { s₁ with balance_cache := (address, balance) :: s₁.balance_cache }, net₁)

/-- Embedding of `OnChainConfig::get_contract_code`: cache first; then the
`force_cache` short-circuit returning the empty string; otherwise
`eth_getCode (address, pinned block)`, strip leading `0x`, cache, return
(a missing result degrades to the empty string). -/
def get_contract_code (env : ExtEnv) (s : OnChainConfig) (net : NetState)
    (address : Nat) (force_cache : Bool) : Res (String × OnChainConfig × NetState) :=
  match cacheLookup s.code_cache address with
  | some c => Res.ok (c, s, net)
  | none =>
    if force_cache then Res.ok ("", s, net)
    else
      match rpcRequest env s net "eth_getCode" (addrBlockParams address s.block_number) with
      | Res.panic m => Res.panic m
      | Res.ok (o, s₁, net₁) =>
        match unwrapRespString o with
        | Res.panic m => Res.panic m
        | Res.ok raw =>
          let respString := trimStart0x raw
          Res.ok (respString,
            { s₁ with code_cache := (address, respString) :: s₁.code_cache }, net₁)

/-- Embedding of `OnChainConfig::get_contract_slot`: cache first; then the
`force_cache` short-circuit returning zero; otherwise
`eth_getStorageAt (address, slot, pinned block)`; an empty (or missing)
payload is cached and returned as zero; otherwise the hex payload is decoded
(unwraps panic) into a 256-bit value. -/
def get_contract_slot (env : ExtEnv) (s : OnChainConfig) (net : NetState)
    (address slot : Nat) (force_cache : Bool) : Res (Nat × OnChainConfig × NetState) :=
  match cacheLookup s.slot_cache (address, slot) with
  | some v => Res.ok (v, s, net)
  | none =>
    if force_cache then Res.ok (0, s, net)
    else
      match rpcRequest env s net "eth_getStorageAt" (slotParams address slot s.block_number) with
      | Res.panic m => Res.panic m
      | Res.ok (o, s₁, net₁) =>
        match unwrapRespString o with
        | Res.panic m => Res.panic m
        | Res.ok respString =>
          let slotSuffix := trimStart0x respString
          if slotSuffix = "" then
            Res.ok (0, { s₁ with slot_cache := ((address, slot), 0) :: s₁.slot_cache }, net₁)
          else
            match hexDecode slotSuffix with
            | none => Res.panic "unwrap of slot hex decode"
            | some bytes =>
              match tryFromBeSlice bytes with
              | none => Res.panic "unwrap of slot conversion"
              | some v =>
                Res.ok (v, { s₁ with slot_cache := ((address, slot), v) :: s₁.slot_cache }, net₁)

/-- The explorer query URL built by `fetch_abi_uncached`, selecting one API
key by the sampled random value (empty when no keys are configured). -/
def abiEndpoint (env : ExtEnv) (s : OnChainConfig) (address : Nat) : String :=
  s.etherscan_base ++ "?module=contract&action=getabi&address=" ++ addrHex address ++
    "&format=json&apikey=" ++
    (if s.etherscan_api_key.isEmpty then ""
     else s.etherscan_api_key.getD (env.randVal % s.etherscan_api_key.length) "")

/-- Normalization of an explorer response body: parse the JSON envelope,
read `result`; the not-verified sentinel and every parse/shape failure all
yield `none`, any other string is the payload. -/
def parseAbiResponse (env : ExtEnv) (resp : String) : Option String :=
  match env.parse resp with
  | some json =>
    match (jIndex json "result").asStr with
    | some result =>
      if result = "Contract source code not verified" then none else some result
    | none => none
  | none => none

/-- Embedding of `OnChainConfig::fetch_abi_uncached`: GET the explorer query
through the transport and normalize the body (a transport `none` is also
`none`). -/
def fetch_abi_uncached (env : ExtEnv) (s : OnChainConfig) (net : NetState)
    (address : Nat) : Res (Option String × OnChainConfig × NetState) :=
  match transportGet env s net (abiEndpoint env s address) with
  | Res.panic m => Res.panic m
  | Res.ok (some resp, s', net') => Res.ok (parseAbiResponse env resp, s', net')
  | Res.ok (none, s', net') => Res.ok (none, s', net')

/-- Embedding of `OnChainConfig::fetch_abi`: ABI-cache check, then the
uncached fetch, whose optional result is stored unconditionally. -/
def fetch_abi (env : ExtEnv) (s : OnChainConfig) (net : NetState) (address : Nat) :
    Res (Option String × OnChainConfig × NetState) :=
  match cacheLookup s.abi_cache address with
  | some r => Res.ok (r, s, net)
  | none =>
    match fetch_abi_uncached env s net address with
    | Res.panic m => Res.panic m
    | Res.ok (abi, s₁, net₁) =>
      Res.ok (abi, { s₁ with abi_cache := (address, abi) :: s₁.abi_cache }, net₁)

/-- The pair-index URL built by `get_pair` (single-pair shape when pegged,
full pair-list shape otherwise). -/
def pairUrl (token network : String) (is_pegged : Bool) (weth : String) : String :=
  if is_pegged then
    "https://pairs.infra.fuzz.land/single_pair/" ++ network ++ "/" ++ token ++ "/" ++ weth
  else
    "https://pairs.infra.fuzz.land/pairs/" ++ network ++ "/" ++ token

/-- Body of the candidate loop of `get_pair`: for each item, read the pool
address (unwraps panic), confirm on-chain bytecode exists (skip silently when
empty), read the tokens, decimals and interface tag (unwraps panic), clamp
negative decimals to zero, and append the built `PairData`. -/
def getPairLoop (env : ExtEnv) (token : String) (is_pegged : Bool) :
    JsonArr → List PairData → OnChainConfig → NetState →
    Res (List PairData × OnChainConfig × NetState)
  | .nil, pairs, s, net => Res.ok (pairs, s, net)
  | .cons item rest, pairs, s, net =>
    match (jIndex item "pair").asStr with
    | none => Res.panic "unwrap of pair field"
    | some pairStr =>
      match parseAddr pairStr with
      | none => Res.panic "unwrap of pair address parse"
      | some pairAddr =>
        match get_contract_code env s net pairAddr false with
        | Res.panic m => Res.panic m
        | Res.ok (code, s₁, net₁) =>
          if code = "" then getPairLoop env token is_pegged rest pairs s₁ net₁
          else
            match (jIndex item "token0").asStr with
            | none => Res.panic "unwrap of token0 field"
            | some token0 =>
              match (jIndex item "token1").asStr with
              | none => Res.panic "unwrap of token1 field"
              | some token1 =>
                match (jIndex item "token0_decimals").asI64 with
                | none => Res.panic "unwrap of token0 decimals"
                | some d0 =>
                  match (jIndex item "token1_decimals").asI64 with
                  | none => Res.panic "unwrap of token1 decimals"
                  | some d1 =>
                    match (jIndex item "interface").asStr with
                    | none => Res.panic "unwrap of interface field"
                    | some srcExact =>
                      let data : PairData :=
                        { src := if is_pegged then "pegged" else "v2"
                          in_ := if token = token0 then 0 else 1
                          pair := pairStr
                          in_token := token
                          next := if token = token0 then token1 else token0
                          src_exact := srcExact
                          rate := 0
                          initial_reserves_0 := ""
                          initial_reserves_1 := ""
                          decimals_0 := if d0 ≥ 0 then d0.toNat else 0
                          decimals_1 := if d1 ≥ 0 then d1.toNat else 0 }
                      getPairLoop env token is_pegged rest (pairs ++ [data]) s₁ net₁

/-- Embedding of `OnChainConfig::get_pair`: lowercase the token, cache-check
by its parsed address (unwrap panics); on a miss, issue one direct,
un-retried HTTP GET to the pair-index service (`reqwest::blocking::get`,
whose transport error and JSON-decode error are both unwrapped, i.e. panic);
a response that is not a JSON array yields the empty list; the filtered list
is cached atomically either way. -/
def get_pair (env : ExtEnv) (s : OnChainConfig) (net : NetState)
    (token network : String) (is_pegged : Bool) (weth : String) :
    Res (List PairData × OnChainConfig × NetState) :=
  let tok := lowerStr token
  match parseAddr tok with
  | none => Res.panic "unwrap of token address parse"
  | some tokenAddr =>
    match cacheLookup s.pair_cache tokenAddr with
    | some ps => Res.ok (ps, s, net)
    | none =>
      match net.send (pairUrl tok network is_pegged weth) "" with
      | (none, _) => Res.panic "unwrap of pair-index transport error"
      | (some body, net₁) =>
        match env.parse body with
        | none => Res.panic "unwrap of pair-index json decode"
        | some resp =>
          match resp.asArr with
          | some items =>
            match getPairLoop env tok is_pegged items [] s net₁ with
            | Res.panic m => Res.panic m
            | Res.ok (pairs, s₂, net₂) =>
              Res.ok (pairs, { s₂ with pair_cache := (tokenAddr, pairs) :: s₂.pair_cache }, net₂)
          | none =>
            Res.ok ([], { s with pair_cache := (tokenAddr, []) :: s.pair_cache }, net₁)

/-- The `eth_call` parameter list built by `fetch_reserve` (serde's `json!`
serializes object keys in sorted order: data, id, to). -/
def reserveParams (pair blockNumber : String) : String :=
  jToString (Json.arr (JsonArr.cons
    (Json.obj (JsonObj.cons "data" (Json.str "0x0902f1ac")
      (JsonObj.cons "id" (Json.num 1)
        (JsonObj.cons "to" (Json.str pair) JsonObj.nil))))
    (JsonArr.cons (Json.str blockNumber) JsonArr.nil)))

/-- Embedding of `OnChainConfig::fetch_reserve`: raw `eth_call` with the
fixed reserves selector against the pinned block; the `result` JSON value is
re-serialized (`Value::to_string`, so a string payload keeps its quotes) and
a missing result degrades to the empty string; any length other than 196
panics (after the diagnostic path re-parses the pair address, whose unwrap
can panic first); otherwise the two reserve words are the character slices
3..67 and 67..131. -/
def fetch_reserve (env : ExtEnv) (s : OnChainConfig) (net : NetState) (pair : String) :
    Res ((String × String) × OnChainConfig × NetState) :=
  match rpcRequestWithId env s net "eth_call" (reserveParams pair s.block_number) 1 with
  | Res.panic m => Res.panic m
  | Res.ok (o, s₁, net₁) =>
    let result :=
      match o with
      | some resp => jToString resp
      | none => ""
    if result.length ≠ 196 then
      match parseAddr pair with
      | none => Res.panic "unwrap of pair address parse"
      | some _ => Res.panic "Unexpected RPC error, consider setting env <ETH_RPC_URL> "
    else
      Res.ok ((charSlice result 3 67, charSlice result 67 131), s₁, net₁)

/-! Helper lemmas about the retry loop and the transports. -/

theorem cacheLookup_head {K V : Type} [DecidableEq K] (k : K) (v : V) (rest : List (K × V)) :
    cacheLookup ((k, v) :: rest) k = some v := by
  simp [cacheLookup]

theorem retryLoop_zero (maxTry delayMs : Nat) (scanRL : Bool) (url body : String)
    (ct : Nat) (net : NetState) :
    retryLoop maxTry delayMs scanRL url body ct 0 net = (none, net) := rfl

theorem retryLoop_guard (maxTry delayMs : Nat) (scanRL : Bool) (url body : String)
    (ct fuel : Nat) (net : NetState) (h : ct > maxTry) :
    retryLoop maxTry delayMs scanRL url body ct (fuel + 1) net = (none, net) := by
  simp [retryLoop, h]

theorem retryLoop_send_some (maxTry delayMs : Nat) (scanRL : Bool) (url body : String)
    (ct fuel : Nat) (net : NetState) (t : String)
    (h : ¬ ct > maxTry) (htr : net.trace net.calls = some t) :
    retryLoop maxTry delayMs scanRL url body ct (fuel + 1) net =
      if scanRL && strContains t rateLimitMarker then
        retryLoop maxTry delayMs scanRL url body (ct + 1) fuel
          (((net.send url body).2).sleep delayMs)
      else (some t, (net.send url body).2) := by
  simp [retryLoop, h, NetState.send, htr]

theorem retryLoop_send_none (maxTry delayMs : Nat) (scanRL : Bool) (url body : String)
    (ct fuel : Nat) (net : NetState)
    (h : ¬ ct > maxTry) (htr : net.trace net.calls = none) :
    retryLoop maxTry delayMs scanRL url body ct (fuel + 1) net =
      retryLoop maxTry delayMs scanRL url body (ct + 1) fuel
        (((net.send url body).2).sleep delayMs) := by
  simp [retryLoop, h, NetState.send, htr]

theorem send_sleep_fields (net : NetState) (url body : String) (d : Nat) :
    (((net.send url body).2).sleep d).calls = net.calls + 1 ∧
    (((net.send url body).2).sleep d).log = (url, body) :: net.log ∧
    (((net.send url body).2).sleep d).sleeps = d :: net.sleeps ∧
    (((net.send url body).2).sleep d).trace = net.trace := by
  simp [NetState.send, NetState.sleep]

/-- Whatever the retry loop does, it performs `k ≤ maxTry + 1 - currentTry`
outbound attempts, all with the same request, and leaves the trace alone. -/
theorem retryLoop_net (maxTry delayMs : Nat) (scanRL : Bool) (url body : String) :
    ∀ fuel ct net, ∃ k, k ≤ maxTry + 1 - ct ∧
      (retryLoop maxTry delayMs scanRL url body ct fuel net).2.calls = net.calls + k ∧
      (retryLoop maxTry delayMs scanRL url body ct fuel net).2.log =
        List.replicate k (url, body) ++ net.log ∧
      (retryLoop maxTry delayMs scanRL url body ct fuel net).2.trace = net.trace := by
  intro fuel
  induction fuel with
  | zero =>
    intro ct net
    exact ⟨0, by simp [retryLoop_zero]⟩
  | succ n ih =>
    intro ct net
    by_cases hct : ct > maxTry
    · exact ⟨0, by simp [retryLoop_guard _ _ _ _ _ _ _ _ hct]⟩
    · cases htr : net.trace net.calls with
      | some t =>
        rw [retryLoop_send_some maxTry delayMs scanRL url body ct n net t hct htr]
        by_cases hrl : (scanRL && strContains t rateLimitMarker) = true
        · rw [if_pos hrl]
          obtain ⟨k, hk, hcalls, hlog, htrace⟩ := ih (ct + 1) (((net.send url body).2).sleep delayMs)
          obtain ⟨hc, hl, _, ht⟩ := send_sleep_fields net url body delayMs
          refine ⟨k + 1, by omega, ?_, ?_, ?_⟩
          · rw [hcalls, hc]; omega
          · rw [hlog, hl]
            rw [List.replicate_succ' (n := k)]
            simp
          · rw [htrace, ht]
        · rw [if_neg hrl]
          refine ⟨1, by omega, ?_, ?_, ?_⟩ <;> simp [NetState.send]
      | none =>
        rw [retryLoop_send_none maxTry delayMs scanRL url body ct n net hct htr]
        obtain ⟨k, hk, hcalls, hlog, htrace⟩ := ih (ct + 1) (((net.send url body).2).sleep delayMs)
        obtain ⟨hc, hl, _, ht⟩ := send_sleep_fields net url body delayMs
        refine ⟨k + 1, by omega, ?_, ?_, ?_⟩
        · rw [hcalls, hc]; omega
        · rw [hlog, hl]
          rw [List.replicate_succ' (n := k)]
          simp
        · rw [htrace, ht]

/-- When the retry loop exhausts (returns `none`), it performed exactly
`maxTry + 1 - currentTry` outbound attempts, each classified retryable, with
that many fixed-delay sleeps. -/
theorem retryLoop_exhaust (maxTry delayMs : Nat) (scanRL : Bool) (url body : String) :
    ∀ fuel ct net net', maxTry + 1 - ct < fuel →
      retryLoop maxTry delayMs scanRL url body ct fuel net = (none, net') →
      net'.calls = net.calls + (maxTry + 1 - ct) ∧
      net'.log = List.replicate (maxTry + 1 - ct) (url, body) ++ net.log ∧
      net'.sleeps = List.replicate (maxTry + 1 - ct) delayMs ++ net.sleeps ∧
      net'.trace = net.trace := by
  intro fuel
  induction fuel with
  | zero =>
    intro ct net net' hf
    omega
  | succ n ih =>
    intro ct net net' hf hrun
    by_cases hct : ct > maxTry
    · rw [retryLoop_guard _ _ _ _ _ _ _ _ hct] at hrun
      have hnet : net' = net := (congrArg Prod.snd hrun).symm
      subst hnet
      have hz : maxTry + 1 - ct = 0 := by omega
      simp [hz]
    · cases htr : net.trace net.calls with
      | some t =>
        rw [retryLoop_send_some maxTry delayMs scanRL url body ct n net t hct htr] at hrun
        by_cases hrl : (scanRL && strContains t rateLimitMarker) = true
        · rw [if_pos hrl] at hrun
          have hlt : maxTry + 1 - (ct + 1) < n := by omega
          obtain ⟨hc, hl, hs, ht⟩ := ih (ct + 1) (((net.send url body).2).sleep delayMs) net' hlt hrun
          obtain ⟨hc', hl', hs', ht'⟩ := send_sleep_fields net url body delayMs
          have hsub : maxTry + 1 - ct = (maxTry + 1 - (ct + 1)) + 1 := by omega
          refine ⟨?_, ?_, ?_, ?_⟩
          · rw [hc, hc']; omega
          · rw [hl, hl', hsub, List.replicate_succ']; simp
          · rw [hs, hs', hsub, List.replicate_succ']; simp
          · rw [ht, ht']
        · rw [if_neg hrl] at hrun
          exact absurd (congrArg Prod.fst hrun) (by simp)
      | none =>
        rw [retryLoop_send_none maxTry delayMs scanRL url body ct n net hct htr] at hrun
        have hlt : maxTry + 1 - (ct + 1) < n := by omega
        obtain ⟨hc, hl, hs, ht⟩ := ih (ct + 1) (((net.send url body).2).sleep delayMs) net' hlt hrun
        obtain ⟨hc', hl', hs', ht'⟩ := send_sleep_fields net url body delayMs
        have hsub : maxTry + 1 - ct = (maxTry + 1 - (ct + 1)) + 1 := by omega
        refine ⟨?_, ?_, ?_, ?_⟩
        · rw [hc, hc']; omega
        · rw [hl, hl', hsub, List.replicate_succ']; simp
        · rw [hs, hs', hsub, List.replicate_succ']; simp
        · rw [ht, ht']

theorem runRetry_net (maxTry delayMs : Nat) (scanRL : Bool) (url body : String) (net : NetState) :
    ∃ k, k ≤ maxTry ∧
      (runRetry maxTry delayMs scanRL url body net).2.calls = net.calls + k ∧
      (runRetry maxTry delayMs scanRL url body net).2.log =
        List.replicate k (url, body) ++ net.log ∧
      (runRetry maxTry delayMs scanRL url body net).2.trace = net.trace := by
  obtain ⟨k, hk, h1, h2, h3⟩ := retryLoop_net maxTry delayMs scanRL url body (maxTry + 1) 1 net
  exact ⟨k, by omega, h1, h2, h3⟩

theorem runRetry_exhaust (maxTry delayMs : Nat) (scanRL : Bool) (url body : String)
    (net net' : NetState) (h : runRetry maxTry delayMs scanRL url body net = (none, net')) :
    net'.calls = net.calls + maxTry ∧
    net'.log = List.replicate maxTry (url, body) ++ net.log ∧
    net'.sleeps = List.replicate maxTry delayMs ++ net.sleeps ∧
    net'.trace = net.trace := by
  have hx := retryLoop_exhaust maxTry delayMs scanRL url body (maxTry + 1) 1 net net' (by omega) h
  have hm : maxTry + 1 - 1 = maxTry := by omega
  rw [hm] at hx
  exact hx

theorem transportGet_hit (env : ExtEnv) (s : OnChainConfig) (net : NetState) (url t : String)
    (hcl : cacheLookup s.rpc_cache (env.hashFn ("get_" ++ url)) = some t) :
    transportGet env s net url = Res.ok (some t, s, net) := by
  simp only [transportGet]
  rw [hcl]

theorem transportGet_success (env : ExtEnv) (s : OnChainConfig) (net : NetState)
    (url t : String) (net₁ : NetState)
    (hcl : cacheLookup s.rpc_cache (env.hashFn ("get_" ++ url)) = none)
    (hrr : runRetry 5 1000 true url "" net = (some t, net₁)) :
    transportGet env s net url =
      if strContains t "error" then Res.ok (some t, s, net₁)
      else if env.saveFails (env.hashFn ("get_" ++ url)) t then
        Res.panic "save failed and was unwrapped"
      else Res.ok (some t,
        { s with rpc_cache := (env.hashFn ("get_" ++ url), t) :: s.rpc_cache }, net₁) := by
  simp only [transportGet]
  rw [hcl, hrr]

theorem transportGet_none (env : ExtEnv) (s : OnChainConfig) (net : NetState)
    (url : String) (net₁ : NetState)
    (hcl : cacheLookup s.rpc_cache (env.hashFn ("get_" ++ url)) = none)
    (hrr : runRetry 5 1000 true url "" net = (none, net₁)) :
    transportGet env s net url = Res.ok (none, s, net₁) := by
  simp only [transportGet]
  rw [hcl, hrr]

theorem transportPost_hit (env : ExtEnv) (s : OnChainConfig) (net : NetState)
    (url data t : String)
    (hcl : cacheLookup s.rpc_cache (env.hashFn ("post_" ++ url ++ "_" ++ data)) = some t) :
    transportPost env s net url data = Res.ok (some t, s, net) := by
  simp only [transportPost]
  rw [hcl]

theorem transportPost_success (env : ExtEnv) (s : OnChainConfig) (net : NetState)
    (url data t : String) (net₁ : NetState)
    (hcl : cacheLookup s.rpc_cache (env.hashFn ("post_" ++ url ++ "_" ++ data)) = none)
    (hrr : runRetry 3 100 false url data net = (some t, net₁)) :
    transportPost env s net url data =
      if strContains t "error" then Res.ok (some t, s, net₁)
      else if env.saveFails (env.hashFn ("post_" ++ url ++ "_" ++ data)) t then
        Res.panic "save failed and was unwrapped"
      else Res.ok (some t,
        { s with rpc_cache := (env.hashFn ("post_" ++ url ++ "_" ++ data), t) :: s.rpc_cache },
        net₁) := by
  simp only [transportPost]
  rw [hcl, hrr]

theorem transportPost_none (env : ExtEnv) (s : OnChainConfig) (net : NetState)
    (url data : String) (net₁ : NetState)
    (hcl : cacheLookup s.rpc_cache (env.hashFn ("post_" ++ url ++ "_" ++ data)) = none)
    (hrr : runRetry 3 100 false url data net = (none, net₁)) :
    transportPost env s net url data = Res.ok (none, s, net₁) := by
  simp only [transportPost]
  rw [hcl, hrr]

theorem transportPost_ok_spec (env : ExtEnv) (s : OnChainConfig) (net : NetState)
    (url data : String) (r : Option String) (s' : OnChainConfig) (net' : NetState)
    (h : transportPost env s net url data = Res.ok (r, s', net')) :
    s' = { s with rpc_cache := s'.rpc_cache } ∧
    ∃ k, k ≤ 3 ∧ net'.calls = net.calls + k ∧
      net'.log = List.replicate k (url, data) ++ net.log ∧ net'.trace = net.trace := by
  cases hcl : cacheLookup s.rpc_cache (env.hashFn ("post_" ++ url ++ "_" ++ data)) with
  | some t =>
    rw [transportPost_hit env s net url data t hcl] at h
    simp only [Res.ok.injEq, Prod.mk.injEq] at h
    obtain ⟨h1, h2, h3⟩ := h
    subst h2
    subst h3
    exact ⟨rfl, 0, by omega, by simp, by simp, rfl⟩
  | none =>
    cases hrr : runRetry 3 100 false url data net with
    | mk o net₁ =>
      obtain ⟨k, hk, hc, hl, ht⟩ := runRetry_net 3 100 false url data net
      rw [hrr] at hc hl ht
      cases o with
      | some t =>
        rw [transportPost_success env s net url data t net₁ hcl hrr] at h
        by_cases herr : strContains t "error" = true
        · rw [if_pos herr] at h
          simp only [Res.ok.injEq, Prod.mk.injEq] at h
          obtain ⟨h1, h2, h3⟩ := h
          subst h2
          subst h3
          exact ⟨rfl, k, hk, hc, hl, ht⟩
        · rw [if_neg herr] at h
          by_cases hsf : env.saveFails (env.hashFn ("post_" ++ url ++ "_" ++ data)) t = true
          · rw [if_pos hsf] at h
            exact Res.noConfusion h
          · rw [if_neg hsf] at h
            simp only [Res.ok.injEq, Prod.mk.injEq] at h
            obtain ⟨h1, h2, h3⟩ := h
            subst h2
            subst h3
            exact ⟨rfl, k, hk, hc, hl, ht⟩
      | none =>
        rw [transportPost_none env s net url data net₁ hcl hrr] at h
        simp only [Res.ok.injEq, Prod.mk.injEq] at h
        obtain ⟨h1, h2, h3⟩ := h
        subst h2
        subst h3
        exact ⟨rfl, k, hk, hc, hl, ht⟩

theorem transportGet_ok_spec (env : ExtEnv) (s : OnChainConfig) (net : NetState)
    (url : String) (r : Option String) (s' : OnChainConfig) (net' : NetState)
    (h : transportGet env s net url = Res.ok (r, s', net')) :
    s' = { s with rpc_cache := s'.rpc_cache } ∧
    ∃ k, k ≤ 5 ∧ net'.calls = net.calls + k ∧
      net'.log = List.replicate k (url, "") ++ net.log ∧ net'.trace = net.trace := by
  cases hcl : cacheLookup s.rpc_cache (env.hashFn ("get_" ++ url)) with
  | some t =>
    rw [transportGet_hit env s net url t hcl] at h
    simp only [Res.ok.injEq, Prod.mk.injEq] at h
    obtain ⟨h1, h2, h3⟩ := h
    subst h2
    subst h3
    exact ⟨rfl, 0, by omega, by simp, by simp, rfl⟩
  | none =>
    cases hrr : runRetry 5 1000 true url "" net with
    | mk o net₁ =>
      obtain ⟨k, hk, hc, hl, ht⟩ := runRetry_net 5 1000 true url "" net
      rw [hrr] at hc hl ht
      cases o with
      | some t =>
        rw [transportGet_success env s net url t net₁ hcl hrr] at h
        by_cases herr : strContains t "error" = true
        · rw [if_pos herr] at h
          simp only [Res.ok.injEq, Prod.mk.injEq] at h
          obtain ⟨h1, h2, h3⟩ := h
          subst h2
          subst h3
          exact ⟨rfl, k, hk, hc, hl, ht⟩
        · rw [if_neg herr] at h
          by_cases hsf : env.saveFails (env.hashFn ("get_" ++ url)) t = true
          · rw [if_pos hsf] at h
            exact Res.noConfusion h
          · rw [if_neg hsf] at h
            simp only [Res.ok.injEq, Prod.mk.injEq] at h
            obtain ⟨h1, h2, h3⟩ := h
            subst h2
            subst h3
            exact ⟨rfl, k, hk, hc, hl, ht⟩
      | none =>
        rw [transportGet_none env s net url net₁ hcl hrr] at h
        simp only [Res.ok.injEq, Prod.mk.injEq] at h
        obtain ⟨h1, h2, h3⟩ := h
        subst h2
        subst h3
        exact ⟨rfl, k, hk, hc, hl, ht⟩

theorem rpcRequest_spec (env : ExtEnv) (s : OnChainConfig) (net : NetState)
    (method params : String) (o : Option Json) (s' : OnChainConfig) (net' : NetState)
    (h : rpcRequest env s net method params = Res.ok (o, s', net')) :
    s' = { s with rpc_cache := s'.rpc_cache } ∧
    ∃ k, k ≤ 3 ∧ net'.calls = net.calls + k ∧
      net'.log =
        List.replicate k (s.endpoint_url, jsonRpcBody method params s.chain_id) ++ net.log ∧
      net'.trace = net.trace := by
  cases hp : transportPost env s net s.endpoint_url (jsonRpcBody method params s.chain_id) with
  | panic m =>
    simp only [rpcRequest] at h
    rw [hp] at h
    exact Res.noConfusion h
  | ok val =>
    obtain ⟨o₁, s₁, net₁⟩ := val
    simp only [rpcRequest] at h
    rw [hp] at h
    simp only [Res.ok.injEq, Prod.mk.injEq] at h
    obtain ⟨h1, h2, h3⟩ := h
    subst h2
    subst h3
    exact transportPost_ok_spec env s net s.endpoint_url
      (jsonRpcBody method params s.chain_id) o₁ s₁ net₁ hp

theorem rpcRequestWithId_spec (env : ExtEnv) (s : OnChainConfig) (net : NetState)
    (method params : String) (id : Nat) (o : Option Json) (s' : OnChainConfig) (net' : NetState)
    (h : rpcRequestWithId env s net method params id = Res.ok (o, s', net')) :
    s' = { s with rpc_cache := s'.rpc_cache } ∧
    ∃ k, k ≤ 3 ∧ net'.calls = net.calls + k ∧
      net'.log = List.replicate k (s.endpoint_url, jsonRpcBody method params id) ++ net.log ∧
      net'.trace = net.trace := by
  cases hp : transportPost env s net s.endpoint_url (jsonRpcBody method params id) with
  | panic m =>
    simp only [rpcRequestWithId] at h
    rw [hp] at h
    exact Res.noConfusion h
  | ok val =>
    obtain ⟨o₁, s₁, net₁⟩ := val
    simp only [rpcRequestWithId] at h
    rw [hp] at h
    simp only [Res.ok.injEq, Prod.mk.injEq] at h
    obtain ⟨h1, h2, h3⟩ := h
    subst h2
    subst h3
    exact transportPost_ok_spec env s net s.endpoint_url (jsonRpcBody method params id) o₁ s₁ net₁ hp

theorem get_balance_ok_spec (env : ExtEnv) (s : OnChainConfig) (net : NetState)
    (a v : Nat) (s' : OnChainConfig) (net' : NetState)
    (h : get_balance env s net a = Res.ok (v, s', net')) :
    s'.block_number = s.block_number ∧
    ∃ k, k ≤ 3 ∧ net'.calls = net.calls + k ∧
      net'.log = List.replicate k (s.endpoint_url,
        jsonRpcBody "eth_getBalance" (addrBlockParams a s.block_number) s.chain_id) ++ net.log ∧
      net'.trace = net.trace := by
  simp only [get_balance] at h
  cases hcl : cacheLookup s.balance_cache a with
  | some b =>
    rw [hcl] at h
    dsimp only at h
    simp only [Res.ok.injEq, Prod.mk.injEq] at h
    obtain ⟨h1, h2, h3⟩ := h
    subst h2
    subst h3
    exact ⟨rfl, 0, by omega, by simp, by simp, rfl⟩
  | none =>
    rw [hcl] at h
    dsimp only at h
    cases hrq : rpcRequest env s net "eth_getBalance" (addrBlockParams a s.block_number) with
    | panic m =>
      rw [hrq] at h
      dsimp only at h
      exact Res.noConfusion h
    | ok val =>
      obtain ⟨o, s₁, net₁⟩ := val
      rw [hrq] at h
      dsimp only at h
      obtain ⟨hsame, k, hk, hc, hl, ht⟩ := rpcRequest_spec env s net _ _ o s₁ net₁ hrq
      cases hus : unwrapRespString o with
      | panic m =>
        rw [hus] at h
        dsimp only at h
        exact Res.noConfusion h
      | ok rs =>
        rw [hus] at h
        dsimp only at h
        cases hpu : parseUint rs with
        | none =>
          rw [hpu] at h
          dsimp only at h
          exact Res.noConfusion h
        | some bal =>
          rw [hpu] at h
          dsimp only at h
          simp only [Res.ok.injEq, Prod.mk.injEq] at h
          obtain ⟨h1, h2, h3⟩ := h
          subst h3
          constructor
          · rw [← h2, hsame]
          · exact ⟨k, hk, hc, hl, ht⟩

theorem get_contract_code_ok_spec (env : ExtEnv) (s : OnChainConfig) (net : NetState)
    (a : Nat) (fc : Bool) (c : String) (s' : OnChainConfig) (net' : NetState)
    (h : get_contract_code env s net a fc = Res.ok (c, s', net')) :
    s'.block_number = s.block_number ∧
    ∃ k, k ≤ 3 ∧ net'.calls = net.calls + k ∧
      net'.log = List.replicate k (s.endpoint_url,
        jsonRpcBody "eth_getCode" (addrBlockParams a s.block_number) s.chain_id) ++ net.log ∧
      net'.trace = net.trace := by
  simp only [get_contract_code] at h
  cases hcl : cacheLookup s.code_cache a with
  | some c₀ =>
    rw [hcl] at h
    dsimp only at h
    simp only [Res.ok.injEq, Prod.mk.injEq] at h
    obtain ⟨h1, h2, h3⟩ := h
    subst h2
    subst h3
    exact ⟨rfl, 0, by omega, by simp, by simp, rfl⟩
  | none =>
    rw [hcl] at h
    dsimp only at h
    by_cases hfc : fc = true
    · rw [if_pos hfc] at h
      simp only [Res.ok.injEq, Prod.mk.injEq] at h
      obtain ⟨h1, h2, h3⟩ := h
      subst h2
      subst h3
      exact ⟨rfl, 0, by omega, by simp, by simp, rfl⟩
    · rw [if_neg hfc] at h
      cases hrq : rpcRequest env s net "eth_getCode" (addrBlockParams a s.block_number) with
      | panic m =>
        rw [hrq] at h
        dsimp only at h
        exact Res.noConfusion h
      | ok val =>
        obtain ⟨o, s₁, net₁⟩ := val
        rw [hrq] at h
        dsimp only at h
        obtain ⟨hsame, k, hk, hc, hl, ht⟩ := rpcRequest_spec env s net _ _ o s₁ net₁ hrq
        cases hus : unwrapRespString o with
        | panic m =>
          rw [hus] at h
          dsimp only at h
          exact Res.noConfusion h
        | ok rs =>
          rw [hus] at h
          dsimp only at h
          simp only [Res.ok.injEq, Prod.mk.injEq] at h
          obtain ⟨h1, h2, h3⟩ := h
          subst h3
          constructor
          · rw [← h2, hsame]
          · exact ⟨k, hk, hc, hl, ht⟩

theorem get_contract_slot_ok_spec (env : ExtEnv) (s : OnChainConfig) (net : NetState)
    (a sl : Nat) (fc : Bool) (v : Nat) (s' : OnChainConfig) (net' : NetState)
    (h : get_contract_slot env s net a sl fc = Res.ok (v, s', net')) :
    s'.block_number = s.block_number ∧
    ∃ k, k ≤ 3 ∧ net'.calls = net.calls + k ∧
      net'.log = List.replicate k (s.endpoint_url,
        jsonRpcBody "eth_getStorageAt" (slotParams a sl s.block_number) s.chain_id) ++ net.log ∧
      net'.trace = net.trace := by
  simp only [get_contract_slot] at h
  cases hcl : cacheLookup s.slot_cache (a, sl) with
  | some v₀ =>
    rw [hcl] at h
    dsimp only at h
    simp only [Res.ok.injEq, Prod.mk.injEq] at h
    obtain ⟨h1, h2, h3⟩ := h
    subst h2
    subst h3
    exact ⟨rfl, 0, by omega, by simp, by simp, rfl⟩
  | none =>
    rw [hcl] at h
    dsimp only at h
    by_cases hfc : fc = true
    · rw [if_pos hfc] at h
      simp only [Res.ok.injEq, Prod.mk.injEq] at h
      obtain ⟨h1, h2, h3⟩ := h
      subst h2
      subst h3
      exact ⟨rfl, 0, by omega, by simp, by simp, rfl⟩
    · rw [if_neg hfc] at h
      cases hrq : rpcRequest env s net "eth_getStorageAt" (slotParams a sl s.block_number) with
      | panic m =>
        rw [hrq] at h
        dsimp only at h
        exact Res.noConfusion h
      | ok val =>
        obtain ⟨o, s₁, net₁⟩ := val
        rw [hrq] at h
        dsimp only at h
        obtain ⟨hsame, k, hk, hc, hl, ht⟩ := rpcRequest_spec env s net _ _ o s₁ net₁ hrq
        cases hus : unwrapRespString o with
        | panic m =>
          rw [hus] at h
          dsimp only at h
          exact Res.noConfusion h
        | ok rs =>
          rw [hus] at h
          dsimp only at h
          by_cases hsuf : trimStart0x rs = ""
          · rw [if_pos hsuf] at h
            simp only [Res.ok.injEq, Prod.mk.injEq] at h
            obtain ⟨h1, h2, h3⟩ := h
            subst h3
            constructor
            · rw [← h2, hsame]
            · exact ⟨k, hk, hc, hl, ht⟩
          · rw [if_neg hsuf] at h
            cases hhd : hexDecode (trimStart0x rs) with
            | none =>
              rw [hhd] at h
              dsimp only at h
              exact Res.noConfusion h
            | some bytes =>
              rw [hhd] at h
              dsimp only at h
              cases htb : tryFromBeSlice bytes with
              | none =>
                rw [htb] at h
                dsimp only at h
                exact Res.noConfusion h
              | some v₁ =>
                rw [htb] at h
                dsimp only at h
                simp only [Res.ok.injEq, Prod.mk.injEq] at h
                obtain ⟨h1, h2, h3⟩ := h
                subst h3
                constructor
                · rw [← h2, hsame]
                · exact ⟨k, hk, hc, hl, ht⟩

/-! Projections for stating closed facts about concrete runs, and concrete
fixtures used by the closed theorems below. -/

/-- Value component of a successful run. -/
def resVal {α : Type} : Res (α × OnChainConfig × NetState) → Option α
  | Res.ok (v, _, _) => some v
  | Res.panic _ => none

/-- State component of a successful run. -/
def resSt {α : Type} : Res (α × OnChainConfig × NetState) → Option OnChainConfig
  | Res.ok (_, s, _) => some s
  | Res.panic _ => none

/-- Network component of a successful run. -/
def resNet {α : Type} : Res (α × OnChainConfig × NetState) → Option NetState
  | Res.ok (_, _, net) => some net
  | Res.panic _ => none

/-- Whether a run aborted the session. -/
def Res.isPanicB {α : Type} : Res α → Bool
  | Res.ok _ => false
  | Res.panic _ => true

/-- Environment whose collaborators are inert: identity fingerprint hash,
a parser that accepts nothing, saves that never fail. -/
def env0 : ExtEnv :=
  { hashFn := id, parse := fun _ => none, saveFails := fun _ _ => false, randVal := 0 }

/-- A fresh session pinned at block 1 with empty caches. -/
def st0 : OnChainConfig := initialState "http://rpc" 1 1 "http://scan" "eth" []

/-- A network on which every attempt fails at the transport level. -/
def netFail : NetState := { trace := fun _ => none, calls := 0, log := [], sleeps := [] }

/-- A network on which every attempt returns the body `"error"`. -/
def netErr : NetState := { trace := fun _ => some "error", calls := 0, log := [], sleeps := [] }

/-- A network on which every attempt returns the body `"resp1"`. -/
def netW : NetState := { trace := fun _ => some "resp1", calls := 0, log := [], sleeps := [] }

/-- Environment whose parser recognizes exactly the body `"resp1"` as the
JSON object with a string `result` of `"0x5"`. -/
def envW : ExtEnv :=
  { hashFn := id
    parse := fun s =>
      if s = "resp1" then
        some (Json.obj (JsonObj.cons "result" (Json.str "0x5") JsonObj.nil))
      else none
    saveFails := fun _ _ => false
    randVal := 0 }

/-- C1: within one session the pinned block number is fixed at construction —
`new_raw` with a nonzero block number pins its 0x-prefixed lowercase hex
rendering (no network activity), and with block number 0 adopts exactly the
string returned by one `eth_blockNumber` resolution; afterwards the
state-read operations `get_balance`, `get_contract_code` and
`get_contract_slot` never modify the pinned block, and every RPC request any
of them sends embeds that same pinned block value in its parameters. -/
theorem c1_pinned_block :
    (∀ (env : ExtEnv) (rpc0 : List (String × String)) (net : NetState)
        (url : String) (cid bn : Nat) (eb cn : String), bn ≠ 0 →
      new_raw env rpc0 net url cid bn eb cn =
        Res.ok (initialState url cid bn eb cn rpc0, net) ∧
      (initialState url cid bn eb cn rpc0).block_number = "0x" ++ natHex bn) ∧
    (∀ (env : ExtEnv) (rpc0 : List (String × String)) (net : NetState)
        (url : String) (cid : Nat) (eb cn : String) (s' : OnChainConfig) (net' : NetState),
      new_raw env rpc0 net url cid 0 eb cn = Res.ok (s', net') →
      ∃ resp s₁ net₁,
        rpcRequest env (initialState url cid 0 eb cn rpc0) net "eth_blockNumber" "[]" =
          Res.ok (some resp, s₁, net₁) ∧
        resp.asStr = some s'.block_number ∧ net' = net₁) ∧
    (∀ (env : ExtEnv) (s : OnChainConfig) (net : NetState) (a v : Nat)
        (s' : OnChainConfig) (net' : NetState),
      get_balance env s net a = Res.ok (v, s', net') →
      s'.block_number = s.block_number ∧
      ∃ k, net'.log = List.replicate k (s.endpoint_url,
        jsonRpcBody "eth_getBalance" (addrBlockParams a s.block_number) s.chain_id) ++ net.log) ∧
    (∀ (env : ExtEnv) (s : OnChainConfig) (net : NetState) (a : Nat) (fc : Bool)
        (c : String) (s' : OnChainConfig) (net' : NetState),
      get_contract_code env s net a fc = Res.ok (c, s', net') →
      s'.block_number = s.block_number ∧
      ∃ k, net'.log = List.replicate k (s.endpoint_url,
        jsonRpcBody "eth_getCode" (addrBlockParams a s.block_number) s.chain_id) ++ net.log) ∧
    (∀ (env : ExtEnv) (s : OnChainConfig) (net : NetState) (a sl : Nat) (fc : Bool)
        (v : Nat) (s' : OnChainConfig) (net' : NetState),
      get_contract_slot env s net a sl fc = Res.ok (v, s', net') →
      s'.block_number = s.block_number ∧
      ∃ k, net'.log = List.replicate k (s.endpoint_url,
        jsonRpcBody "eth_getStorageAt" (slotParams a sl s.block_number) s.chain_id) ++ net.log) := by
  refine ⟨?_, ?_, ?_, ?_, ?_⟩
  · intro env rpc0 net url cid bn eb cn hbn
    constructor
    · simp only [new_raw]
      rw [if_neg hbn]
    · rfl
  · intro env rpc0 net url cid eb cn s' net' h
    simp only [new_raw] at h
    rw [if_pos trivial] at h
    simp only [set_latest_block_number] at h
    cases hrq : rpcRequest env (initialState url cid 0 eb cn rpc0) net "eth_blockNumber" "[]" with
    | panic m =>
      rw [hrq] at h
      dsimp only at h
      exact Res.noConfusion h
    | ok val =>
      obtain ⟨o, s₁, net₁⟩ := val
      rw [hrq] at h
      cases o with
      | none =>
        dsimp only at h
        exact Res.noConfusion h
      | some resp =>
        dsimp only at h
        cases hstr : resp.asStr with
        | none =>
          rw [hstr] at h
          dsimp only at h
          exact Res.noConfusion h
        | some bn =>
          rw [hstr] at h
          dsimp only at h
          cases hpd : parseDigits 16 (trimChars0x bn.toList) with
          | none =>
            rw [hpd] at h
            dsimp only at h
            exact Res.noConfusion h
          | some v =>
            rw [hpd] at h
            dsimp only at h
            by_cases hv : v < 2 ^ 256
            · rw [if_pos hv] at h
              simp only [Res.ok.injEq, Prod.mk.injEq] at h
              obtain ⟨h2, h3⟩ := h
              refine ⟨resp, s₁, net₁, rfl, ?_, h3.symm⟩
              rw [← h2]
              exact hstr
            · rw [if_neg hv] at h
              exact Res.noConfusion h
  · intro env s net a v s' net' h
    obtain ⟨hbn, k, _, _, hl, _⟩ := get_balance_ok_spec env s net a v s' net' h
    exact ⟨hbn, k, hl⟩
  · intro env s net a fc c s' net' h
    obtain ⟨hbn, k, _, _, hl, _⟩ := get_contract_code_ok_spec env s net a fc c s' net' h
    exact ⟨hbn, k, hl⟩
  · intro env s net a sl fc v s' net' h
    obtain ⟨hbn, k, _, _, hl, _⟩ := get_contract_slot_ok_spec env s net a sl fc v s' net' h
    exact ⟨hbn, k, hl⟩

/-- C1 witness: pinning at a concrete nonzero block, and a concrete balance
read that leaves the pinned block untouched. -/
theorem c1_pinned_block_witness :
    new_raw env0 [] netFail "http://rpc" 1 5 "scan" "eth" =
      Res.ok (initialState "http://rpc" 1 5 "scan" "eth" [], netFail) ∧
    (initialState "http://rpc" 1 5 "scan" "eth" []).block_number = "0x5" ∧
    (resSt (get_balance envW st0 netW 7)).map OnChainConfig.block_number = some "0x1" := by
  obtain ⟨h1, h2⟩ := c1_pinned_block.1 env0 [] netFail "http://rpc" 1 5 "scan" "eth" (by decide)
  refine ⟨h1, h2, ?_⟩
  have hnp : Res.isPanicB (get_balance envW st0 netW 7) = false := rfl
  cases hE : get_balance envW st0 netW 7 with
  | panic m =>
    rw [hE] at hnp
    simp [Res.isPanicB] at hnp
  | ok val =>
    obtain ⟨v, s', net'⟩ := val
    have hx := (c1_pinned_block.2.2.1) envW st0 netW 7 v s' net' hE
    simp only [resSt, Option.map]
    rw [hx.1]
    rfl

/-- The network state after one attempt against `netErr`. -/
def netErr1 : NetState := { netErr with calls := 1, log := [("u", "")] }

/-- C2 counterexample: with every attempt answering the body `"error"`, two
identical gets return identical text but the second is not served from the
persistent cache (the body was suppressed from caching), so the two
invocations together perform two outbound network calls, not one. -/
theorem c2_counterexample :
    resVal (transportGet env0 st0 netErr "u") = some (some "error") ∧
    resSt (transportGet env0 st0 netErr "u") = some st0 ∧
    (resNet (transportGet env0 st0 netErr "u")).map NetState.calls = some 1 ∧
    resVal (transportGet env0 st0 netErr1 "u") = some (some "error") ∧
    (resNet (transportGet env0 st0 netErr1 "u")).map NetState.calls = some 2 :=
  ⟨rfl, rfl, rfl, rfl, rfl⟩

/-- C2 (amended): a persistent-cache hit returns the cached text immediately
with zero network attempts (for both get and post); and when a get succeeds
with text that does not contain `"error"`, the text is persisted, so an
immediately repeated get with the same URL returns the identical text while
performing zero further network activity. (When the text does contain
`"error"` it is not persisted and the repetition re-contacts the network, so
the two invocations need not total exactly one outbound call.) -/
theorem c2_amended :
    (∀ (env : ExtEnv) (s : OnChainConfig) (net : NetState) (url t : String),
      cacheLookup s.rpc_cache (env.hashFn ("get_" ++ url)) = some t →
      transportGet env s net url = Res.ok (some t, s, net)) ∧
    (∀ (env : ExtEnv) (s : OnChainConfig) (net : NetState) (url data t : String),
      cacheLookup s.rpc_cache (env.hashFn ("post_" ++ url ++ "_" ++ data)) = some t →
      transportPost env s net url data = Res.ok (some t, s, net)) ∧
    (∀ (env : ExtEnv) (s : OnChainConfig) (net : NetState) (url t : String)
        (s' : OnChainConfig) (net' : NetState),
      transportGet env s net url = Res.ok (some t, s', net') →
      strContains t "error" = false →
      transportGet env s' net' url = Res.ok (some t, s', net')) := by
  refine ⟨?_, ?_, ?_⟩
  · intro env s net url t hcl
    exact transportGet_hit env s net url t hcl
  · intro env s net url data t hcl
    exact transportPost_hit env s net url data t hcl
  · intro env s net url t s' net' h herr
    cases hcl : cacheLookup s.rpc_cache (env.hashFn ("get_" ++ url)) with
    | some t₀ =>
      rw [transportGet_hit env s net url t₀ hcl] at h
      simp only [Res.ok.injEq, Prod.mk.injEq, Option.some.injEq] at h
      obtain ⟨h1, h2, h3⟩ := h
      subst h1
      subst h2
      subst h3
      exact transportGet_hit env s net url t₀ hcl
    | none =>
      cases hrr : runRetry 5 1000 true url "" net with
      | mk o net₁ =>
        cases o with
        | some t₀ =>
          rw [transportGet_success env s net url t₀ net₁ hcl hrr] at h
          by_cases herr₀ : strContains t₀ "error" = true
          · rw [if_pos herr₀] at h
            simp only [Res.ok.injEq, Prod.mk.injEq, Option.some.injEq] at h
            obtain ⟨h1, h2, h3⟩ := h
            subst h1
            exact absurd herr₀ (by simp [herr])
          · rw [if_neg herr₀] at h
            by_cases hsf : env.saveFails (env.hashFn ("get_" ++ url)) t₀ = true
            · rw [if_pos hsf] at h
              exact Res.noConfusion h
            · rw [if_neg hsf] at h
              simp only [Res.ok.injEq, Prod.mk.injEq, Option.some.injEq] at h
              obtain ⟨h1, h2, h3⟩ := h
              subst h1
              subst h2
              subst h3
              exact transportGet_hit env _ _ url _ (cacheLookup_head _ _ _)
        | none =>
          rw [transportGet_none env s net url net₁ hcl hrr] at h
          simp only [Res.ok.injEq, Prod.mk.injEq] at h
          exact absurd h.1 (by simp)

/-- C2 witness: a concrete persistent-cache hit is served with no network
activity. -/
theorem c2_amended_witness :
    transportGet env0 { st0 with rpc_cache := [("get_u", "hit")] } netFail "u" =
      Res.ok (some "hit", { st0 with rpc_cache := [("get_u", "hit")] }, netFail) :=
  c2_amended.1 env0 { st0 with rpc_cache := [("get_u", "hit")] } netFail "u" "hit" rfl

/-- C3 counterexample: on a network where every attempt fails, the GET retry
loop exhausts and returns none after exactly 5 outbound attempts (not 6),
sleeping 1000 ms between consecutive attempts, and the POST loop after
exactly 3 outbound attempts (not 4) with 100 ms sleeps. -/
theorem c3_counterexample :
    resVal (transportGet env0 st0 netFail "u") = some none ∧
    (resNet (transportGet env0 st0 netFail "u")).map NetState.calls = some 5 ∧
    (resNet (transportGet env0 st0 netFail "u")).map NetState.sleeps =
      some (List.replicate 5 1000) ∧
    resVal (transportPost env0 st0 netFail "u" "d") = some none ∧
    (resNet (transportPost env0 st0 netFail "u" "d")).map NetState.calls = some 3 ∧
    (resNet (transportPost env0 st0 netFail "u" "d")).map NetState.sleeps =
      some (List.replicate 3 100) :=
  ⟨rfl, rfl, rfl, rfl, rfl, rfl⟩

/-- C3 (amended): on a persistent-cache miss the GET retry loop issues at
most 5 outbound attempts (the loop body is entered up to 6 times, the sixth
returning the terminal error without sending) with a fixed 1000 ms sleep
between attempts, retrying when the transport fails or the body contains the
rate-limit marker; exhaustion performs exactly 5 attempts and 5 sleeps and
surfaces none with the session state unchanged. The POST loop issues at most
3 attempts with a fixed 100 ms sleep and no rate-limit scan, exhausting at
exactly 3. -/
theorem c3_amended :
    (∀ (env : ExtEnv) (s : OnChainConfig) (net : NetState) (url : String)
        (r : Option String) (s' : OnChainConfig) (net' : NetState),
      transportGet env s net url = Res.ok (r, s', net') →
      net'.calls ≤ net.calls + 5) ∧
    (∀ (env : ExtEnv) (s : OnChainConfig) (net : NetState) (url data : String)
        (r : Option String) (s' : OnChainConfig) (net' : NetState),
      transportPost env s net url data = Res.ok (r, s', net') →
      net'.calls ≤ net.calls + 3) ∧
    (∀ (env : ExtEnv) (s : OnChainConfig) (net : NetState) (url : String)
        (s' : OnChainConfig) (net' : NetState),
      transportGet env s net url = Res.ok (none, s', net') →
      s' = s ∧ net'.calls = net.calls + 5 ∧
      net'.sleeps = List.replicate 5 1000 ++ net.sleeps) ∧
    (∀ (env : ExtEnv) (s : OnChainConfig) (net : NetState) (url data : String)
        (s' : OnChainConfig) (net' : NetState),
      transportPost env s net url data = Res.ok (none, s', net') →
      s' = s ∧ net'.calls = net.calls + 3 ∧
      net'.sleeps = List.replicate 3 100 ++ net.sleeps) ∧
    (∀ (net : NetState) (url body : String) (ct fuel : Nat), ct ≤ 5 →
      net.trace net.calls = none →
      retryLoop 5 1000 true url body ct (fuel + 1) net =
        retryLoop 5 1000 true url body (ct + 1) fuel (((net.send url body).2).sleep 1000)) ∧
    (∀ (net : NetState) (url body t : String) (ct fuel : Nat), ct ≤ 5 →
      net.trace net.calls = some t → strContains t rateLimitMarker = true →
      retryLoop 5 1000 true url body ct (fuel + 1) net =
        retryLoop 5 1000 true url body (ct + 1) fuel (((net.send url body).2).sleep 1000)) ∧
    (∀ (net : NetState) (url body t : String) (ct fuel : Nat), ct ≤ 5 →
      net.trace net.calls = some t → strContains t rateLimitMarker = false →
      retryLoop 5 1000 true url body ct (fuel + 1) net = (some t, (net.send url body).2)) := by
  refine ⟨?_, ?_, ?_, ?_, ?_, ?_, ?_⟩
  · intro env s net url r s' net' h
    obtain ⟨-, k, hk, hc, -, -⟩ := transportGet_ok_spec env s net url r s' net' h
    omega
  · intro env s net url data r s' net' h
    obtain ⟨-, k, hk, hc, -, -⟩ := transportPost_ok_spec env s net url data r s' net' h
    omega
  · intro env s net url s' net' h
    cases hcl : cacheLookup s.rpc_cache (env.hashFn ("get_" ++ url)) with
    | some t =>
      rw [transportGet_hit env s net url t hcl] at h
      simp only [Res.ok.injEq, Prod.mk.injEq] at h
      exact absurd h.1 (by simp)
    | none =>
      cases hrr : runRetry 5 1000 true url "" net with
      | mk o net₁ =>
        cases o with
        | some t =>
          rw [transportGet_success env s net url t net₁ hcl hrr] at h
          by_cases herr : strContains t "error" = true
          · rw [if_pos herr] at h
            simp only [Res.ok.injEq, Prod.mk.injEq] at h
            exact absurd h.1 (by simp)
          · rw [if_neg herr] at h
            by_cases hsf : env.saveFails (env.hashFn ("get_" ++ url)) t = true
            · rw [if_pos hsf] at h
              exact Res.noConfusion h
            · rw [if_neg hsf] at h
              simp only [Res.ok.injEq, Prod.mk.injEq] at h
              exact absurd h.1 (by simp)
        | none =>
          rw [transportGet_none env s net url net₁ hcl hrr] at h
          simp only [Res.ok.injEq, Prod.mk.injEq] at h
          obtain ⟨-, h2, h3⟩ := h
          obtain ⟨hc, -, hs, -⟩ := runRetry_exhaust 5 1000 true url "" net net₁ hrr
          subst h2
          subst h3
          exact ⟨rfl, hc, hs⟩
  · intro env s net url data s' net' h
    cases hcl : cacheLookup s.rpc_cache (env.hashFn ("post_" ++ url ++ "_" ++ data)) with
    | some t =>
      rw [transportPost_hit env s net url data t hcl] at h
      simp only [Res.ok.injEq, Prod.mk.injEq] at h
      exact absurd h.1 (by simp)
    | none =>
      cases hrr : runRetry 3 100 false url data net with
      | mk o net₁ =>
        cases o with
        | some t =>
          rw [transportPost_success env s net url data t net₁ hcl hrr] at h
          by_cases herr : strContains t "error" = true
          · rw [if_pos herr] at h
            simp only [Res.ok.injEq, Prod.mk.injEq] at h
            exact absurd h.1 (by simp)
          · rw [if_neg herr] at h
            by_cases hsf : env.saveFails (env.hashFn ("post_" ++ url ++ "_" ++ data)) t = true
            · rw [if_pos hsf] at h
              exact Res.noConfusion h
            · rw [if_neg hsf] at h
              simp only [Res.ok.injEq, Prod.mk.injEq] at h
              exact absurd h.1 (by simp)
        | none =>
          rw [transportPost_none env s net url data net₁ hcl hrr] at h
          simp only [Res.ok.injEq, Prod.mk.injEq] at h
          obtain ⟨-, h2, h3⟩ := h
          obtain ⟨hc, -, hs, -⟩ := runRetry_exhaust 3 100 false url data net net₁ hrr
          subst h2
          subst h3
          exact ⟨rfl, hc, hs⟩
  · intro net url body ct fuel hct htr
    exact retryLoop_send_none 5 1000 true url body ct fuel net (by omega) htr
  · intro net url body t ct fuel hct htr hrl
    rw [retryLoop_send_some 5 1000 true url body ct fuel net t (by omega) htr]
    rw [if_pos (by simp [hrl])]
  · intro net url body t ct fuel hct htr hrl
    rw [retryLoop_send_some 5 1000 true url body ct fuel net t (by omega) htr]
    rw [if_neg (by simp [hrl])]

/-- C3 witness: a concrete successful first-attempt get stays within the
5-attempt bound. -/
theorem c3_amended_witness :
    ({ netErr with calls := 1, log := [("u", "")] } : NetState).calls ≤ netErr.calls + 5 :=
  c3_amended.1 env0 st0 netErr "u" (some "error") st0
    { netErr with calls := 1, log := [("u", "")] } rfl

/-- The network state after the three failing POST attempts of a slot read
against `netFail`. -/
def netSlotFail : NetState :=
  { netFail with
    calls := 3
    log := List.replicate 3 ("http://rpc", jsonRpcBody "eth_getStorageAt" (slotParams 5 3 "0x1") 1)
    sleeps := List.replicate 3 100 }

/-- C4 counterexample: with every network attempt failing (so the
`eth_getStorageAt` request yields no result after retry exhaustion),
`get_contract_slot` does not abort the session: it returns zero and caches
zero for the slot. -/
theorem c4_counterexample :
    get_contract_slot env0 st0 netFail 5 3 false =
      Res.ok (0, { st0 with slot_cache := [((5, 3), 0)] }, netSlotFail) ∧
    Res.isPanicB (get_contract_slot env0 st0 netFail 5 3 false) = false :=
  ⟨rfl, rfl⟩

/-- C4 (amended): when the `eth_getStorageAt` request yields no result after
retry exhaustion, `get_contract_slot` treats it exactly like an empty hex
payload: it caches and returns zero for the slot (the default value) rather
than aborting the session. -/
theorem c4_amended (env : ExtEnv) (s : OnChainConfig) (net : NetState) (a sl : Nat)
    (s₁ : OnChainConfig) (net₁ : NetState)
    (hcl : cacheLookup s.slot_cache (a, sl) = none)
    (hrq : rpcRequest env s net "eth_getStorageAt" (slotParams a sl s.block_number) =
      Res.ok (none, s₁, net₁)) :
    get_contract_slot env s net a sl false =
      Res.ok (0, { s₁ with slot_cache := ((a, sl), 0) :: s₁.slot_cache }, net₁) := by
  simp only [get_contract_slot]
  rw [hcl, hrq]
  rfl

/-- C4 witness: the amended behavior at a concrete all-failing network. -/
theorem c4_amended_witness :
    cacheLookup st0.slot_cache (5, 3) = none ∧
    resVal (get_contract_slot env0 st0 netFail 5 3 false) = some 0 ∧
    (resSt (get_contract_slot env0 st0 netFail 5 3 false)).map OnChainConfig.slot_cache =
      some [((5, 3), 0)] := by
  refine ⟨rfl, ?_, ?_⟩ <;>
    rw [c4_amended env0 st0 netFail 5 3 st0 netSlotFail rfl rfl] <;> rfl

/-- A syntactically valid, lowercase token address used by the concrete pair
lookups. -/
def tokA : String := "0xaaaaaaaaaaaaaaaaaaaaaaaaaaaaaaaaaaaaaaaa"

/-- The 160-bit value of `tokA`. -/
def tokAval : Nat := 0xaaaaaaaaaaaaaaaaaaaaaaaaaaaaaaaaaaaaaaaa

/-- C5 counterexample: a transient transport failure on the single (never
retried) pair-index request makes `get_pair` panic — a session-terminating
failure, not an absence result. -/
theorem c5_counterexample :
    get_pair env0 st0 netFail tokA "bsc" false "" =
      Res.panic "unwrap of pair-index transport error" := rfl

/-- C5 (amended): `get_pair` does not use the retrying Transport at all: on a
pair-cache miss it issues a single direct HTTP request whose transport
failure panics (aborts the session) rather than degrading to an absence
result; only a decodable response that is not a JSON array degrades to the
empty list, which is cached. -/
theorem c5_amended (env : ExtEnv) (s : OnChainConfig) (net : NetState)
    (token network weth : String) (is_pegged : Bool) (taddr : Nat)
    (hT : parseAddr (lowerStr token) = some taddr)
    (hcl : cacheLookup s.pair_cache taddr = none) :
    (net.trace net.calls = none →
      get_pair env s net token network is_pegged weth =
        Res.panic "unwrap of pair-index transport error") ∧
    (∀ (body : String) (j : Json), net.trace net.calls = some body →
      env.parse body = some j → j.asArr = none →
      get_pair env s net token network is_pegged weth =
        Res.ok ([], { s with pair_cache := (taddr, []) :: s.pair_cache },
          (net.send (pairUrl (lowerStr token) network is_pegged weth) "").2)) := by
  constructor
  · intro htr
    simp only [get_pair]
    rw [hT]
    dsimp only
    rw [hcl]
    simp only [NetState.send]
    rw [htr]
  · intro body j htr hp ha
    simp only [get_pair]
    rw [hT]
    dsimp only
    rw [hcl]
    simp only [NetState.send]
    rw [htr]
    dsimp only
    rw [hp]
    dsimp only
    rw [ha]

/-- C5 witness: the amended behavior at a concrete failing pair-index
request. -/
theorem c5_amended_witness :
    parseAddr (lowerStr tokA) = some tokAval ∧
    get_pair env0 st0 netFail tokA "bsc" false "" =
      Res.panic "unwrap of pair-index transport error" := by
  refine ⟨rfl, ?_⟩
  exact (c5_amended env0 st0 netFail tokA "bsc" "" false tokAval rfl rfl).1 rfl

theorem strLength_mk (l : List Char) : (String.mk l).length = l.length := rfl

theorem charSlice_length (s : String) (a b : Nat) :
    (charSlice s a b).length = min (b - a) (s.toList.length - a) := by
  unfold charSlice
  rw [strLength_mk, List.length_take, List.length_drop]

/-- C6: given a reserve-call result whose serialized form has exactly 196
characters, `fetch_reserve` returns exactly the two 64-character substrings
at the fixed offsets (characters 3..67 and 67..131); a result of any other
length — including the empty string a missing result degrades to — raises a
session-aborting panic. -/
theorem c6_fetch_reserve (env : ExtEnv) (s : OnChainConfig) (net : NetState) (pair : String)
    (o : Option Json) (s₁ : OnChainConfig) (net₁ : NetState)
    (hrq : rpcRequestWithId env s net "eth_call" (reserveParams pair s.block_number) 1 =
      Res.ok (o, s₁, net₁)) :
    (∀ resp, o = some resp → (jToString resp).length = 196 →
      fetch_reserve env s net pair =
        Res.ok ((charSlice (jToString resp) 3 67, charSlice (jToString resp) 67 131),
          s₁, net₁) ∧
      (charSlice (jToString resp) 3 67).length = 64 ∧
      (charSlice (jToString resp) 67 131).length = 64) ∧
    (∀ resp, o = some resp → (jToString resp).length ≠ 196 →
      ∃ m, fetch_reserve env s net pair = Res.panic m) ∧
    (o = none → ∃ m, fetch_reserve env s net pair = Res.panic m) := by
  refine ⟨?_, ?_, ?_⟩
  · intro resp ho hlen
    subst ho
    refine ⟨?_, ?_, ?_⟩
    · simp only [fetch_reserve]
      rw [hrq]
      dsimp only
      rw [if_neg (fun hk => hk hlen)]
    · rw [charSlice_length]
      have hl : (jToString resp).toList.length = 196 := hlen
      rw [hl]
      decide
    · rw [charSlice_length]
      have hl : (jToString resp).toList.length = 196 := hlen
      rw [hl]
      decide
  · intro resp ho hne
    subst ho
    cases hpa : parseAddr pair with
    | none =>
      refine ⟨"unwrap of pair address parse", ?_⟩
      simp only [fetch_reserve]
      rw [hrq]
      dsimp only
      rw [if_pos hne, hpa]
    | some av =>
      refine ⟨"Unexpected RPC error, consider setting env <ETH_RPC_URL> ", ?_⟩
      simp only [fetch_reserve]
      rw [hrq]
      dsimp only
      rw [if_pos hne, hpa]
  · intro ho
    subst ho
    cases hpa : parseAddr pair with
    | none =>
      refine ⟨"unwrap of pair address parse", ?_⟩
      simp only [fetch_reserve]
      rw [hrq]
      dsimp only
      rw [if_pos (by decide), hpa]
    | some av =>
      refine ⟨"Unexpected RPC error, consider setting env <ETH_RPC_URL> ", ?_⟩
      simp only [fetch_reserve]
      rw [hrq]
      dsimp only
      rw [if_pos (by decide), hpa]

/-- First reserve word of the concrete reserve payload. -/
def reserveWord0 : String := String.mk (List.replicate 64 '1')

/-- Second reserve word of the concrete reserve payload. -/
def reserveWord1 : String := String.mk (List.replicate 64 '2')

/-- Trailing timestamp word of the concrete reserve payload. -/
def reserveWord2 : String := String.mk (List.replicate 64 '3')

/-- A concrete 194-character reserve-call result string (196 with the quotes
its JSON serialization adds). -/
def hex194 : String := "0x" ++ reserveWord0 ++ reserveWord1 ++ reserveWord2

/-- Environment whose parser recognizes exactly the body `"respR"` as a JSON
object carrying `hex194` as its string `result`. -/
def envR : ExtEnv :=
  { hashFn := id
    parse := fun s =>
      if s = "respR" then
        some (Json.obj (JsonObj.cons "result" (Json.str hex194) JsonObj.nil))
      else none
    saveFails := fun _ _ => false
    randVal := 0 }

/-- A network on which every attempt returns the body `"respR"`. -/
def netR : NetState := { trace := fun _ => some "respR", calls := 0, log := [], sleeps := [] }

/-- The session state after the reserve call's POST persisted its response. -/
def stR : OnChainConfig :=
  { st0 with
    rpc_cache :=
      [("post_" ++ "http://rpc" ++ "_" ++ jsonRpcBody "eth_call" (reserveParams tokA "0x1") 1,
        "respR")] }

/-- The network state after the reserve call's single successful attempt. -/
def netR1 : NetState :=
  { netR with
    calls := 1
    log := [("http://rpc", jsonRpcBody "eth_call" (reserveParams tokA "0x1") 1)] }

/-- C6 witness: a concrete 196-character result is decoded into its two
64-character reserve words. -/
theorem c6_fetch_reserve_witness :
    (jToString (Json.str hex194)).length = 196 ∧
    fetch_reserve envR st0 netR tokA =
      Res.ok ((reserveWord0, reserveWord1), stR, netR1) := by
  have h196 : (jToString (Json.str hex194)).length = 196 := rfl
  have hrq : rpcRequestWithId envR st0 netR "eth_call" (reserveParams tokA st0.block_number) 1 =
      Res.ok (some (Json.str hex194), stR, netR1) := rfl
  have h := (c6_fetch_reserve envR st0 netR tokA (some (Json.str hex194)) stR netR1 hrq).1
    (Json.str hex194) rfl h196
  refine ⟨h196, ?_⟩
  rw [h.1]
  rfl

theorem transportGet_cache_spec (env : ExtEnv) (s : OnChainConfig) (net : NetState)
    (url : String) (r : Option String) (s' : OnChainConfig) (net' : NetState)
    (h : transportGet env s net url = Res.ok (r, s', net')) :
    s'.rpc_cache = s.rpc_cache ∨
    ∃ t, r = some t ∧ strContains t "error" = false ∧
      s'.rpc_cache = (env.hashFn ("get_" ++ url), t) :: s.rpc_cache := by
  cases hcl : cacheLookup s.rpc_cache (env.hashFn ("get_" ++ url)) with
  | some t =>
    rw [transportGet_hit env s net url t hcl] at h
    simp only [Res.ok.injEq, Prod.mk.injEq] at h
    obtain ⟨h1, h2, h3⟩ := h
    subst h2
    exact Or.inl rfl
  | none =>
    cases hrr : runRetry 5 1000 true url "" net with
    | mk o net₁ =>
      cases o with
      | some t =>
        rw [transportGet_success env s net url t net₁ hcl hrr] at h
        by_cases herr : strContains t "error" = true
        · rw [if_pos herr] at h
          simp only [Res.ok.injEq, Prod.mk.injEq] at h
          obtain ⟨h1, h2, h3⟩ := h
          subst h2
          exact Or.inl rfl
        · rw [if_neg herr] at h
          by_cases hsf : env.saveFails (env.hashFn ("get_" ++ url)) t = true
          · rw [if_pos hsf] at h
            exact Res.noConfusion h
          · rw [if_neg hsf] at h
            simp only [Res.ok.injEq, Prod.mk.injEq] at h
            obtain ⟨h1, h2, h3⟩ := h
            subst h2
            exact Or.inr ⟨t, h1.symm, by simp [herr], rfl⟩
      | none =>
        rw [transportGet_none env s net url net₁ hcl hrr] at h
        simp only [Res.ok.injEq, Prod.mk.injEq] at h
        obtain ⟨h1, h2, h3⟩ := h
        subst h2
        exact Or.inl rfl

theorem transportPost_cache_spec (env : ExtEnv) (s : OnChainConfig) (net : NetState)
    (url data : String) (r : Option String) (s' : OnChainConfig) (net' : NetState)
    (h : transportPost env s net url data = Res.ok (r, s', net')) :
    s'.rpc_cache = s.rpc_cache ∨
    ∃ t, r = some t ∧ strContains t "error" = false ∧
      s'.rpc_cache = (env.hashFn ("post_" ++ url ++ "_" ++ data), t) :: s.rpc_cache := by
  cases hcl : cacheLookup s.rpc_cache (env.hashFn ("post_" ++ url ++ "_" ++ data)) with
  | some t =>
    rw [transportPost_hit env s net url data t hcl] at h
    simp only [Res.ok.injEq, Prod.mk.injEq] at h
    obtain ⟨h1, h2, h3⟩ := h
    subst h2
    exact Or.inl rfl
  | none =>
    cases hrr : runRetry 3 100 false url data net with
    | mk o net₁ =>
      cases o with
      | some t =>
        rw [transportPost_success env s net url data t net₁ hcl hrr] at h
        by_cases herr : strContains t "error" = true
        · rw [if_pos herr] at h
          simp only [Res.ok.injEq, Prod.mk.injEq] at h
          obtain ⟨h1, h2, h3⟩ := h
          subst h2
          exact Or.inl rfl
        · rw [if_neg herr] at h
          by_cases hsf : env.saveFails (env.hashFn ("post_" ++ url ++ "_" ++ data)) t = true
          · rw [if_pos hsf] at h
            exact Res.noConfusion h
          · rw [if_neg hsf] at h
            simp only [Res.ok.injEq, Prod.mk.injEq] at h
            obtain ⟨h1, h2, h3⟩ := h
            subst h2
            exact Or.inr ⟨t, h1.symm, by simp [herr], rfl⟩
      | none =>
        rw [transportPost_none env s net url data net₁ hcl hrr] at h
        simp only [Res.ok.injEq, Prod.mk.injEq] at h
        obtain ⟨h1, h2, h3⟩ := h
        subst h2
        exact Or.inl rfl

/-- C7: for every successful network response of the transport (GET or
POST), the text is written to the persistent cache exactly when it does not
contain the substring `"error"` (given that the `save` itself succeeds, as
a failing save aborts instead), and the text is returned to the caller in
either case; consequently every entry a transport call adds to the
persistent cache lacks that substring. -/
theorem c7_persist_policy :
    (∀ (env : ExtEnv) (s : OnChainConfig) (net : NetState) (url t : String) (net₁ : NetState),
      cacheLookup s.rpc_cache (env.hashFn ("get_" ++ url)) = none →
      runRetry 5 1000 true url "" net = (some t, net₁) →
      (strContains t "error" = true →
        transportGet env s net url = Res.ok (some t, s, net₁)) ∧
      (strContains t "error" = false →
        env.saveFails (env.hashFn ("get_" ++ url)) t = false →
        transportGet env s net url =
          Res.ok (some t,
            { s with rpc_cache := (env.hashFn ("get_" ++ url), t) :: s.rpc_cache }, net₁))) ∧
    (∀ (env : ExtEnv) (s : OnChainConfig) (net : NetState) (url data t : String)
        (net₁ : NetState),
      cacheLookup s.rpc_cache (env.hashFn ("post_" ++ url ++ "_" ++ data)) = none →
      runRetry 3 100 false url data net = (some t, net₁) →
      (strContains t "error" = true →
        transportPost env s net url data = Res.ok (some t, s, net₁)) ∧
      (strContains t "error" = false →
        env.saveFails (env.hashFn ("post_" ++ url ++ "_" ++ data)) t = false →
        transportPost env s net url data =
          Res.ok (some t,
            { s with rpc_cache := (env.hashFn ("post_" ++ url ++ "_" ++ data), t) :: s.rpc_cache },
            net₁))) ∧
    (∀ (env : ExtEnv) (s : OnChainConfig) (net : NetState) (url : String)
        (r : Option String) (s' : OnChainConfig) (net' : NetState),
      transportGet env s net url = Res.ok (r, s', net') →
      ∀ kv ∈ s'.rpc_cache, kv ∈ s.rpc_cache ∨ strContains kv.2 "error" = false) ∧
    (∀ (env : ExtEnv) (s : OnChainConfig) (net : NetState) (url data : String)
        (r : Option String) (s' : OnChainConfig) (net' : NetState),
      transportPost env s net url data = Res.ok (r, s', net') →
      ∀ kv ∈ s'.rpc_cache, kv ∈ s.rpc_cache ∨ strContains kv.2 "error" = false) := by
  refine ⟨?_, ?_, ?_, ?_⟩
  · intro env s net url t net₁ hcl hrr
    constructor
    · intro herr
      rw [transportGet_success env s net url t net₁ hcl hrr, if_pos herr]
    · intro herr hsf
      rw [transportGet_success env s net url t net₁ hcl hrr,
        if_neg (by simp [herr]), if_neg (by simp [hsf])]
  · intro env s net url data t net₁ hcl hrr
    constructor
    · intro herr
      rw [transportPost_success env s net url data t net₁ hcl hrr, if_pos herr]
    · intro herr hsf
      rw [transportPost_success env s net url data t net₁ hcl hrr,
        if_neg (by simp [herr]), if_neg (by simp [hsf])]
  · intro env s net url r s' net' h kv hkv
    cases transportGet_cache_spec env s net url r s' net' h with
    | inl hc =>
      rw [hc] at hkv
      exact Or.inl hkv
    | inr hc =>
      obtain ⟨t, -, herr, hc⟩ := hc
      rw [hc] at hkv
      cases hkv with
      | head => exact Or.inr herr
      | tail _ hmem => exact Or.inl hmem
  · intro env s net url data r s' net' h kv hkv
    cases transportPost_cache_spec env s net url data r s' net' h with
    | inl hc =>
      rw [hc] at hkv
      exact Or.inl hkv
    | inr hc =>
      obtain ⟨t, -, herr, hc⟩ := hc
      rw [hc] at hkv
      cases hkv with
      | head => exact Or.inr herr
      | tail _ hmem => exact Or.inl hmem

/-- C7 witness: a concrete success containing `"error"` is returned but not
persisted, and a concrete success without it is returned and persisted. -/
theorem c7_persist_policy_witness :
    transportGet env0 st0 netErr "u" = Res.ok (some "error", st0, netErr1) ∧
    transportGet env0 st0 netW "u" =
      Res.ok (some "resp1", { st0 with rpc_cache := [("get_u", "resp1")] },
        { netW with calls := 1, log := [("u", "")] }) := by
  constructor
  · exact (c7_persist_policy.1 env0 st0 netErr "u" "error" netErr1 rfl rfl).1 rfl
  · exact (c7_persist_policy.1 env0 st0 netW "u" "resp1"
      { netW with calls := 1, log := [("u", "")] } rfl rfl).2 rfl rfl

theorem get_contract_code_hit (env : ExtEnv) (s : OnChainConfig) (net : NetState)
    (a : Nat) (fc : Bool) (c : String) (hcl : cacheLookup s.code_cache a = some c) :
    get_contract_code env s net a fc = Res.ok (c, s, net) := by
  simp only [get_contract_code]
  rw [hcl]

theorem get_contract_slot_hit (env : ExtEnv) (s : OnChainConfig) (net : NetState)
    (a sl : Nat) (fc : Bool) (v : Nat) (hcl : cacheLookup s.slot_cache (a, sl) = some v) :
    get_contract_slot env s net a sl fc = Res.ok (v, s, net) := by
  simp only [get_contract_slot]
  rw [hcl]

theorem get_contract_code_caches (env : ExtEnv) (s : OnChainConfig) (net : NetState)
    (a : Nat) (c : String) (s' : OnChainConfig) (net' : NetState)
    (h : get_contract_code env s net a false = Res.ok (c, s', net')) :
    cacheLookup s'.code_cache a = some c := by
  simp only [get_contract_code] at h
  cases hcl : cacheLookup s.code_cache a with
  | some c₀ =>
    rw [hcl] at h
    dsimp only at h
    simp only [Res.ok.injEq, Prod.mk.injEq] at h
    obtain ⟨h1, h2, h3⟩ := h
    subst h1
    subst h2
    exact hcl
  | none =>
    rw [hcl] at h
    dsimp only at h
    rw [if_neg (by decide : ¬ ((false : Bool) = true))] at h
    cases hrq : rpcRequest env s net "eth_getCode" (addrBlockParams a s.block_number) with
    | panic m =>
      rw [hrq] at h
      dsimp only at h
      exact Res.noConfusion h
    | ok val =>
      obtain ⟨o, s₁, net₁⟩ := val
      rw [hrq] at h
      dsimp only at h
      cases hus : unwrapRespString o with
      | panic m =>
        rw [hus] at h
        dsimp only at h
        exact Res.noConfusion h
      | ok rs =>
        rw [hus] at h
        dsimp only at h
        simp only [Res.ok.injEq, Prod.mk.injEq] at h
        obtain ⟨h1, h2, h3⟩ := h
        subst h1
        rw [← h2]
        exact cacheLookup_head a (trimStart0x rs) s₁.code_cache

theorem get_contract_slot_caches (env : ExtEnv) (s : OnChainConfig) (net : NetState)
    (a sl : Nat) (v : Nat) (s' : OnChainConfig) (net' : NetState)
    (h : get_contract_slot env s net a sl false = Res.ok (v, s', net')) :
    cacheLookup s'.slot_cache (a, sl) = some v := by
  simp only [get_contract_slot] at h
  cases hcl : cacheLookup s.slot_cache (a, sl) with
  | some v₀ =>
    rw [hcl] at h
    dsimp only at h
    simp only [Res.ok.injEq, Prod.mk.injEq] at h
    obtain ⟨h1, h2, h3⟩ := h
    subst h1
    subst h2
    exact hcl
  | none =>
    rw [hcl] at h
    dsimp only at h
    rw [if_neg (by decide : ¬ ((false : Bool) = true))] at h
    cases hrq : rpcRequest env s net "eth_getStorageAt" (slotParams a sl s.block_number) with
    | panic m =>
      rw [hrq] at h
      dsimp only at h
      exact Res.noConfusion h
    | ok val =>
      obtain ⟨o, s₁, net₁⟩ := val
      rw [hrq] at h
      dsimp only at h
      cases hus : unwrapRespString o with
      | panic m =>
        rw [hus] at h
        dsimp only at h
        exact Res.noConfusion h
      | ok rs =>
        rw [hus] at h
        dsimp only at h
        by_cases hsuf : trimStart0x rs = ""
        · rw [if_pos hsuf] at h
          simp only [Res.ok.injEq, Prod.mk.injEq] at h
          obtain ⟨h1, h2, h3⟩ := h
          subst h1
          rw [← h2]
          exact cacheLookup_head (a, sl) 0 s₁.slot_cache
        · rw [if_neg hsuf] at h
          cases hhd : hexDecode (trimStart0x rs) with
          | none =>
            rw [hhd] at h
            dsimp only at h
            exact Res.noConfusion h
          | some bytes =>
            rw [hhd] at h
            dsimp only at h
            cases htb : tryFromBeSlice bytes with
            | none =>
              rw [htb] at h
              dsimp only at h
              exact Res.noConfusion h
            | some v₁ =>
              rw [htb] at h
              dsimp only at h
              simp only [Res.ok.injEq, Prod.mk.injEq] at h
              obtain ⟨h1, h2, h3⟩ := h
              subst h1
              rw [← h2]
              exact cacheLookup_head (a, sl) v₁ s₁.slot_cache

/-- C8: with `force_cache` set and the key absent from the in-memory cache,
`get_contract_code` returns the empty string and `get_contract_slot` returns
zero, each leaving the state and the network untouched (zero network calls);
a cached key is answered from the cache under any flag; and after a
successful non-forced fetch, the forced call returns the fetched value with
no further state or network activity. -/
theorem c8_force_cache :
    (∀ (env : ExtEnv) (s : OnChainConfig) (net : NetState) (a : Nat),
      cacheLookup s.code_cache a = none →
      get_contract_code env s net a true = Res.ok ("", s, net)) ∧
    (∀ (env : ExtEnv) (s : OnChainConfig) (net : NetState) (a sl : Nat),
      cacheLookup s.slot_cache (a, sl) = none →
      get_contract_slot env s net a sl true = Res.ok (0, s, net)) ∧
    (∀ (env : ExtEnv) (s : OnChainConfig) (net : NetState) (a : Nat) (fc : Bool) (c : String),
      cacheLookup s.code_cache a = some c →
      get_contract_code env s net a fc = Res.ok (c, s, net)) ∧
    (∀ (env : ExtEnv) (s : OnChainConfig) (net : NetState) (a sl : Nat) (fc : Bool) (v : Nat),
      cacheLookup s.slot_cache (a, sl) = some v →
      get_contract_slot env s net a sl fc = Res.ok (v, s, net)) ∧
    (∀ (env : ExtEnv) (s : OnChainConfig) (net : NetState) (a : Nat) (c : String)
        (s' : OnChainConfig) (net' : NetState),
      get_contract_code env s net a false = Res.ok (c, s', net') →
      get_contract_code env s' net' a true = Res.ok (c, s', net')) ∧
    (∀ (env : ExtEnv) (s : OnChainConfig) (net : NetState) (a sl v : Nat)
        (s' : OnChainConfig) (net' : NetState),
      get_contract_slot env s net a sl false = Res.ok (v, s', net') →
      get_contract_slot env s' net' a sl true = Res.ok (v, s', net')) := by
  refine ⟨?_, ?_, ?_, ?_, ?_, ?_⟩
  · intro env s net a hcl
    simp only [get_contract_code]
    rw [hcl]
    rfl
  · intro env s net a sl hcl
    simp only [get_contract_slot]
    rw [hcl]
    rfl
  · intro env s net a fc c hcl
    exact get_contract_code_hit env s net a fc c hcl
  · intro env s net a sl fc v hcl
    exact get_contract_slot_hit env s net a sl fc v hcl
  · intro env s net a c s' net' h
    exact get_contract_code_hit env s' net' a true c
      (get_contract_code_caches env s net a c s' net' h)
  · intro env s net a sl v s' net' h
    exact get_contract_slot_hit env s' net' a sl true v
      (get_contract_slot_caches env s net a sl v s' net' h)

/-- C8 witness: concrete force-cache short-circuits with no network calls. -/
theorem c8_force_cache_witness :
    get_contract_code env0 st0 netFail 5 true = Res.ok ("", st0, netFail) ∧
    get_contract_slot env0 st0 netFail 5 3 true = Res.ok (0, st0, netFail) ∧
    get_contract_code env0 { st0 with code_cache := [(5, "6001")] } netFail 5 true =
      Res.ok ("6001", { st0 with code_cache := [(5, "6001")] }, netFail) := by
  refine ⟨c8_force_cache.1 env0 st0 netFail 5 rfl,
    c8_force_cache.2.1 env0 st0 netFail 5 3 rfl,
    c8_force_cache.2.2.1 env0 { st0 with code_cache := [(5, "6001")] } netFail 5 true "6001" rfl⟩

theorem fetch_abi_uncached_resp (env : ExtEnv) (s : OnChainConfig) (net : NetState)
    (a : Nat) (resp : String) (s₁ : OnChainConfig) (net₁ : NetState)
    (hTG : transportGet env s net (abiEndpoint env s a) = Res.ok (some resp, s₁, net₁)) :
    fetch_abi_uncached env s net a = Res.ok (parseAbiResponse env resp, s₁, net₁) := by
  simp only [fetch_abi_uncached]
  rw [hTG]

theorem fetch_abi_hit (env : ExtEnv) (s : OnChainConfig) (net : NetState)
    (a : Nat) (r : Option String) (hcl : cacheLookup s.abi_cache a = some r) :
    fetch_abi env s net a = Res.ok (r, s, net) := by
  simp only [fetch_abi]
  rw [hcl]

theorem fetch_abi_caches (env : ExtEnv) (s : OnChainConfig) (net : NetState)
    (a : Nat) (r : Option String) (s' : OnChainConfig) (net' : NetState)
    (h : fetch_abi env s net a = Res.ok (r, s', net')) :
    cacheLookup s'.abi_cache a = some r := by
  simp only [fetch_abi] at h
  cases hcl : cacheLookup s.abi_cache a with
  | some r₀ =>
    rw [hcl] at h
    dsimp only at h
    simp only [Res.ok.injEq, Prod.mk.injEq] at h
    obtain ⟨h1, h2, h3⟩ := h
    subst h1
    subst h2
    exact hcl
  | none =>
    rw [hcl] at h
    dsimp only at h
    cases hu : fetch_abi_uncached env s net a with
    | panic m =>
      rw [hu] at h
      dsimp only at h
      exact Res.noConfusion h
    | ok val =>
      obtain ⟨abi, s₁, net₁⟩ := val
      rw [hu] at h
      dsimp only at h
      simp only [Res.ok.injEq, Prod.mk.injEq] at h
      obtain ⟨h1, h2, h3⟩ := h
      subst h1
      rw [← h2]
      exact cacheLookup_head a abi s₁.abi_cache

/-- C9: `fetch_abi` parses the explorer response's `result` field — the
literal "Contract source code not verified" is normalized to none (a
cacheable negative), any other string is returned as the payload, and a JSON
parse failure or a missing/non-string `result` also yields none; whatever
optional value results is stored in the ABI cache, so a later call for the
same address returns it without refetching. -/
theorem c9_fetch_abi :
    (∀ (env : ExtEnv) (s : OnChainConfig) (net : NetState) (a : Nat) (r : Option String),
      cacheLookup s.abi_cache a = some r →
      fetch_abi env s net a = Res.ok (r, s, net)) ∧
    (∀ (env : ExtEnv) (s : OnChainConfig) (net : NetState) (a : Nat) (resp : String)
        (s₁ : OnChainConfig) (net₁ : NetState),
      cacheLookup s.abi_cache a = none →
      transportGet env s net (abiEndpoint env s a) = Res.ok (some resp, s₁, net₁) →
      fetch_abi env s net a =
        Res.ok (parseAbiResponse env resp,
          { s₁ with abi_cache := (a, parseAbiResponse env resp) :: s₁.abi_cache }, net₁)) ∧
    (∀ (env : ExtEnv) (resp : String) (j : Json), env.parse resp = some j →
      (jIndex j "result").asStr = some "Contract source code not verified" →
      parseAbiResponse env resp = none) ∧
    (∀ (env : ExtEnv) (resp : String) (j : Json) (r : String), env.parse resp = some j →
      (jIndex j "result").asStr = some r → r ≠ "Contract source code not verified" →
      parseAbiResponse env resp = some r) ∧
    (∀ (env : ExtEnv) (resp : String) (j : Json), env.parse resp = some j →
      (jIndex j "result").asStr = none → parseAbiResponse env resp = none) ∧
    (∀ (env : ExtEnv) (resp : String), env.parse resp = none →
      parseAbiResponse env resp = none) ∧
    (∀ (env : ExtEnv) (s : OnChainConfig) (net : NetState) (a : Nat) (r : Option String)
        (s' : OnChainConfig) (net' : NetState),
      fetch_abi env s net a = Res.ok (r, s', net') →
      fetch_abi env s' net' a = Res.ok (r, s', net')) := by
  refine ⟨?_, ?_, ?_, ?_, ?_, ?_, ?_⟩
  · intro env s net a r hcl
    exact fetch_abi_hit env s net a r hcl
  · intro env s net a resp s₁ net₁ hcl hTG
    simp only [fetch_abi]
    rw [hcl]
    dsimp only
    rw [fetch_abi_uncached_resp env s net a resp s₁ net₁ hTG]
  · intro env resp j hp hres
    simp only [parseAbiResponse]
    rw [hp]
    dsimp only
    rw [hres]
    dsimp only
    rw [if_pos rfl]
  · intro env resp j r hp hres hne
    simp only [parseAbiResponse]
    rw [hp]
    dsimp only
    rw [hres]
    dsimp only
    rw [if_neg hne]
  · intro env resp j hp hres
    simp only [parseAbiResponse]
    rw [hp]
    dsimp only
    rw [hres]
  · intro env resp hp
    simp only [parseAbiResponse]
    rw [hp]
  · intro env s net a r s' net' h
    exact fetch_abi_hit env s' net' a r (fetch_abi_caches env s net a r s' net' h)

/-- Environment whose parser recognizes exactly the body `"respA"` as a JSON
object whose string `result` is the not-verified sentinel. -/
def envA : ExtEnv :=
  { hashFn := id
    parse := fun s =>
      if s = "respA" then
        some (Json.obj (JsonObj.cons "result"
          (Json.str "Contract source code not verified") JsonObj.nil))
      else none
    saveFails := fun _ _ => false
    randVal := 0 }

/-- A network on which every attempt returns the body `"respA"`. -/
def netA : NetState := { trace := fun _ => some "respA", calls := 0, log := [], sleeps := [] }

/-- The session state after the explorer GET persisted its response. -/
def stA : OnChainConfig :=
  { st0 with rpc_cache := [("get_" ++ abiEndpoint envA st0 7, "respA")] }

/-- The network state after the explorer GET's single successful attempt. -/
def netA1 : NetState :=
  { netA with calls := 1, log := [(abiEndpoint envA st0 7, "")] }

/-- C9 witness: a concrete not-verified explorer response is normalized to
none and cached. -/
theorem c9_fetch_abi_witness :
    parseAbiResponse envA "respA" = none ∧
    fetch_abi envA st0 netA 7 =
      Res.ok (none, { stA with abi_cache := [(7, none)] }, netA1) := by
  have h3 := c9_fetch_abi.2.2.1 envA "respA"
    (Json.obj (JsonObj.cons "result"
      (Json.str "Contract source code not verified") JsonObj.nil)) rfl rfl
  have h2 := c9_fetch_abi.2.1 envA st0 netA 7 "respA" stA netA1 rfl rfl
  rw [h3] at h2
  exact ⟨h3, h2⟩

/-- C10: when persisting a successful transport response that does not
contain the substring "error", a failing persistent-cache save is unwrapped:
the call panics instead of returning the response text to the caller. -/
theorem c10_save_panic :
    (∀ (env : ExtEnv) (s : OnChainConfig) (net : NetState) (url t : String) (net₁ : NetState),
      cacheLookup s.rpc_cache (env.hashFn ("get_" ++ url)) = none →
      runRetry 5 1000 true url "" net = (some t, net₁) →
      strContains t "error" = false →
      env.saveFails (env.hashFn ("get_" ++ url)) t = true →
      transportGet env s net url = Res.panic "save failed and was unwrapped") ∧
    (∀ (env : ExtEnv) (s : OnChainConfig) (net : NetState) (url data t : String)
        (net₁ : NetState),
      cacheLookup s.rpc_cache (env.hashFn ("post_" ++ url ++ "_" ++ data)) = none →
      runRetry 3 100 false url data net = (some t, net₁) →
      strContains t "error" = false →
      env.saveFails (env.hashFn ("post_" ++ url ++ "_" ++ data)) t = true →
      transportPost env s net url data = Res.panic "save failed and was unwrapped") := by
  constructor
  · intro env s net url t net₁ hcl hrr herr hsf
    rw [transportGet_success env s net url t net₁ hcl hrr,
      if_neg (by simp [herr]), if_pos hsf]
  · intro env s net url data t net₁ hcl hrr herr hsf
    rw [transportPost_success env s net url data t net₁ hcl hrr,
      if_neg (by simp [herr]), if_pos hsf]

/-- Environment like `env0` but whose persistent-cache saves always fail. -/
def envS : ExtEnv :=
  { hashFn := id, parse := fun _ => none, saveFails := fun _ _ => true, randVal := 0 }

/-- C10 witness: a concrete failing save panics instead of returning the
successful response text. -/
theorem c10_save_panic_witness :
    Res.isPanicB (transportGet envS st0 netW "u") = true := by
  rw [c10_save_panic.1 envS st0 netW "u" "resp1"
    { netW with calls := 1, log := [("u", "")] } rfl rfl rfl rfl]
  rfl
